import Mathlib

/-!
NetSIO bridge (src/netsio.c) and cartridge information (src/cartridge_info.c):
a shallow embedding.

The globals of netsio.c become one record, `Bridge.State`.  The system calls the
code makes (sendto, write and read on the FIFO, millisleep) are modelled by
logs and by scripted results that live in the same record, so every function
below is an ordinary executable function on states.

C integers: `int` is `Int`, `uint8_t` and `size_t` are `Nat`, and every store
into a `uint8_t` is written with an explicit `% 256`.
-/

namespace Bridge

/-- Value stored when an integer is assigned to a uint8_t object. -/
def u8 (x : Nat) : Nat := x % 256

/-- Value of a ssize_t converted to size_t (64 bit). -/
def to_size_t (x : Int) : Nat := (x % (2 ^ 64 : Int)).toNat

/-- Command bytes NETSIO_* that netsio.c takes from its header netsio.h.  The
embedding is parametric in them: it holds for every assignment. -/
structure Consts where
  DATA_BYTE : Nat
  DATA_BLOCK : Nat
  DATA_BYTE_SYNC : Nat
  COMMAND_OFF : Nat
  COMMAND_ON : Nat
  COMMAND_OFF_SYNC : Nat
  PROCEED_OFF : Nat
  PROCEED_ON : Nat
  INTERRUPT_OFF : Nat
  INTERRUPT_ON : Nat
  SPEED_CHANGE : Nat
  SYNC_RESPONSE : Nat
  DEVICE_DISCONNECTED : Nat
  DEVICE_CONNECTED : Nat
  PING_REQUEST : Nat
  PING_RESPONSE : Nat
  ALIVE_REQUEST : Nat
  ALIVE_RESPONSE : Nat
  CREDIT_STATUS : Nat
  CREDIT_UPDATE : Nat
deriving DecidableEq, Repr

/-- The case labels of the switch in fujinet_rx_thread, in source order. -/
def Consts.labels (K : Consts) : List Nat :=
  [K.PING_REQUEST, K.DEVICE_CONNECTED, K.DEVICE_DISCONNECTED, K.ALIVE_REQUEST,
   K.CREDIT_STATUS, K.SPEED_CHANGE, K.SYNC_RESPONSE, K.PROCEED_ON, K.PROCEED_OFF,
   K.INTERRUPT_ON, K.INTERRUPT_OFF, K.DATA_BYTE, K.DATA_BLOCK]

/-- Every constant the code stores into a uint8_t. -/
def Consts.stored (K : Consts) : List Nat :=
  [K.DATA_BYTE, K.DATA_BLOCK, K.DATA_BYTE_SYNC, K.COMMAND_OFF, K.COMMAND_ON,
   K.COMMAND_OFF_SYNC, K.PING_RESPONSE, K.ALIVE_RESPONSE, K.CREDIT_UPDATE]

/-- What a C compiler needs of the header for netsio.c to mean what it says:
the case labels of one switch are pairwise distinct, and the command constants
are byte values. -/
def Consts.WF (K : Consts) : Prop :=
  K.labels.Nodup ∧ (∀ c ∈ K.labels, c < 256) ∧ (∀ c ∈ K.stored, c < 256)

instance (K : Consts) : Decidable K.WF := by
  unfold Consts.WF; infer_instance

/-- One assignment of the constants: the command bytes of the published NetSIO
protocol.  Used to evaluate the embedding on concrete inputs. -/
def netsio_h : Consts where
  DATA_BYTE := 0x01
  DATA_BLOCK := 0x02
  DATA_BYTE_SYNC := 0x09
  COMMAND_OFF := 0x10
  COMMAND_ON := 0x11
  COMMAND_OFF_SYNC := 0x18
  PROCEED_OFF := 0x30
  PROCEED_ON := 0x31
  INTERRUPT_OFF := 0x40
  INTERRUPT_ON := 0x41
  SPEED_CHANGE := 0x80
  SYNC_RESPONSE := 0x81
  DEVICE_DISCONNECTED := 0xC0
  DEVICE_CONNECTED := 0xC1
  PING_REQUEST := 0xC2
  PING_RESPONSE := 0xC3
  ALIVE_REQUEST := 0xC4
  ALIVE_RESPONSE := 0xC5
  CREDIT_STATUS := 0xC6
  CREDIT_UPDATE := 0xC7

/-- Result of one sendto(2): n >= 0 bytes accepted, or -1 with errno EINTR, or
-1 with another errno. -/
inductive SendRes
  | ok (n : Nat)
  | eintr
  | fail
deriving DecidableEq, Repr

/-- Result of one write(2) on the FIFO: n >= 0 bytes taken, or -1 with errno
EINTR, or -1 with another errno. -/
inductive WriteRes
  | wrote (n : Nat)
  | eintr
  | fail
deriving DecidableEq, Repr

/-- Result of one read(2) of one byte from the FIFO that does not deliver a
byte: -1 with errno EINTR, -1 with another errno, or 0 (end of file). -/
inductive ReadRes
  | eintr
  | fail
  | eof
deriving DecidableEq, Repr

/-- The globals of netsio.c together with the observable environment. -/
structure State where
  /-- volatile int netsio_enabled -/
  netsio_enabled : Int
  /-- uint8_t netsio_sync_num -/
  netsio_sync_num : Nat
  /-- int fujinet_known -/
  fujinet_known : Int
  /-- volatile int netsio_sync_wait -/
  netsio_sync_wait : Int
  /-- int netsio_cmd_state -/
  netsio_cmd_state : Int
  /-- volatile int netsio_next_write_size -/
  netsio_next_write_size : Int
  /-- whether fujinet_addr.ss_family == AF_INET -/
  addr_inet : Bool
  /-- bytes in the FIFO fds0, oldest first -/
  pipe : List Nat
  /-- every sendto call so far: the bytes handed over and the result -/
  sendto_log : List (List Nat × SendRes)
  /-- argument of every millisleep call so far -/
  slept : List Nat
  /-- results of the next sendto calls; calls past the script send in full -/
  tx_script : List SendRes
  /-- results of the next write calls; calls past the script write in full -/
  wr_script : List WriteRes
  /-- results of the next read calls; calls past the script read normally -/
  rd_script : List ReadRes
deriving DecidableEq, Repr

/-- The state at program start: the C initialisers, an empty FIFO, a zeroed
fujinet_addr (family AF_UNSPEC), and an environment without failures. -/
def State.init : State where
  netsio_enabled := 0
  netsio_sync_num := 0
  fujinet_known := 0
  netsio_sync_wait := 0
  netsio_cmd_state := 0
  netsio_next_write_size := 0
  addr_inet := false
  pipe := []
  sendto_log := []
  slept := []
  tx_script := []
  wr_script := []
  rd_script := []

/-- How a call that contains a loop or a blocking system call ends. -/
inductive Run (α : Type)
  /-- the call returned -/
  | done (a : α)
  /-- the loop was still running when the fuel ran out -/
  | nofuel
  /-- the C code reads outside an object: `len` bytes at offset `off` of a
  buffer that does not hold them (a write on the FIFO asked for them, or a
  loop ran past the end) -/
  | outside (off : Int) (len : Nat)
  /-- read on an empty FIFO: the caller sleeps until the other thread writes -/
  | blocked
deriving DecidableEq, Repr

/-- millisleep(ms): recorded in the log of sleeps. -/
def millisleep (ms : Nat) (s : State) : State :=
  { s with slept := s.slept ++ [ms] }

/-- The while loop of netsio_wait_for_sync, with the local `ticker`.
`rx k` is what the receiver thread does to the globals while the emulator
thread is inside the k-th millisleep of this call (k counts from 0). -/
def wait_loop (rx : Nat → State → State) : Nat → Int → State → Option State
  | 0, _, _ => none
  | fuel + 1, ticker, s =>
    if s.netsio_sync_wait ≠ 0 then
      let s1 := millisleep 5 s
      let s2 := rx ticker.toNat s1
      if ticker > 7 then
        some { s2 with netsio_sync_wait := 0 }
      else
        wait_loop rx fuel (ticker + 1) s2
    else
      some s

/-- netsio_wait_for_sync (netsio.c:282). -/
def netsio_wait_for_sync (rx : Nat → State → State) (fuel : Nat) (s : State) : Option State :=
  wait_loop rx fuel 0 s

/-- sendto(sockfd, pkt, len, ...): takes its result from the script and records
the call. -/
def sendto (pkt : List Nat) (s : State) : SendRes × State :=
  match s.tx_script with
  | [] =>
    (.ok pkt.length, { s with sendto_log := s.sendto_log ++ [(pkt, .ok pkt.length)] })
  | r :: rest =>
    (r, { s with tx_script := rest, sendto_log := s.sendto_log ++ [(pkt, r)] })

/-- send_to_fujinet (netsio.c:108): `pkt` is the caller's buffer, of which the
first `len` bytes are sent. -/
def send_to_fujinet (pkt : List Nat) (len : Nat) (s : State) : State :=
  if s.fujinet_known = 0 ∨ s.addr_inet = false then
    s
  else
    match sendto (pkt.take len) s with
    | (.ok n, s1) =>
      -- n >= 0: the partial-send branch and the normal end both return
      if n ≠ len then s1 else s1
    | (.eintr, s1) =>
      -- n < 0 with EINTR: transient, try once more; whatever comes, return
      (sendto (pkt.take len) s1).2
    | (.fail, s1) =>
      s1

/-- send_block_to_fujinet (netsio.c:191): `block` is the caller's buffer, which
holds at least `len` bytes (what memcpy requires). -/
def send_block_to_fujinet (K : Consts) (block : List Nat) (len : Nat) (s : State) : State :=
  if len = 0 ∨ len > 512 then
    s
  else
    let packet := u8 K.DATA_BLOCK :: (block.take len ++ [0xFF])
    send_to_fujinet packet (len + 2) s

/-- netsio_cmd_on (netsio.c:317). -/
def netsio_cmd_on (K : Consts) (s : State) : Int × State :=
  let p := u8 K.COMMAND_ON
  let s1 := { s with netsio_cmd_state := 1 }
  (0, send_to_fujinet [p] 1 s1)

/-- netsio_cmd_off (netsio.c:330). -/
def netsio_cmd_off (K : Consts) (s : State) : Int × State :=
  let p := u8 K.COMMAND_OFF
  (0, send_to_fujinet [p] 1 s)

/-- netsio_cmd_off_sync (netsio.c:342). -/
def netsio_cmd_off_sync (K : Consts) (s : State) : Int × State :=
  let s1 := { s with netsio_sync_num := u8 (s.netsio_sync_num + 1) }
  let p := [u8 K.COMMAND_OFF_SYNC, s1.netsio_sync_num]
  let s2 := send_to_fujinet p 2 s1
  (0, { s2 with netsio_sync_wait := 1 })

/-- netsio_toggle_cmd (netsio.c:357). -/
def netsio_toggle_cmd (K : Consts) (v : Int) (s : State) : State :=
  if v = 0 then (netsio_cmd_off_sync K s).2 else (netsio_cmd_on K s).2

/-- netsio_send_byte (netsio.c:366). -/
def netsio_send_byte (K : Consts) (b : Nat) (s : State) : Int × State :=
  let pkt := [u8 K.DATA_BYTE, b]
  (0, send_to_fujinet pkt 2 s)

/-- netsio_send_block (netsio.c:378): `len` is a ssize_t, converted to size_t
at the call of send_block_to_fujinet. -/
def netsio_send_block (K : Consts) (block : List Nat) (len : Int) (s : State) : Int × State :=
  (0, send_block_to_fujinet K block (to_size_t len) s)

/-- netsio_send_byte_sync (netsio.c:387). -/
def netsio_send_byte_sync (K : Consts) (b : Nat) (s : State) : Int × State :=
  let s1 := { s with netsio_sync_num := u8 (s.netsio_sync_num + 1) }
  let p := [u8 K.DATA_BYTE_SYNC, b, s1.netsio_sync_num]
  let s2 := send_to_fujinet p 3 s1
  (0, { s2 with netsio_sync_wait := 1 })

/-- netsio_cold_reset (netsio.c:422). -/
def netsio_cold_reset (s : State) : Int × State :=
  (0, send_to_fujinet [0xFF] 1 s)

/-- netsio_warm_reset (netsio.c:432). -/
def netsio_warm_reset (s : State) : Int × State :=
  (0, send_to_fujinet [0xFE] 1 s)

/-- netsio_test_cmd (netsio.c:442): the array p[6] has five initialisers, so
its last byte is 0. -/
def netsio_test_cmd (K : Consts) (s : State) : State :=
  let p := [0x70, 0xE8, 0x00, 0x00, 0x59, 0x00]
  let s1 := (netsio_cmd_on K s).2
  let s2 := send_block_to_fujinet K p 6 s1
  (netsio_cmd_off_sync K s2).2

/-- enqueue_to_emulator (netsio.c:89): the loop over write(fds0[1], pkt, len),
where the moving pointer is the packet `pkt` and an offset `off` into it. -/
def enqueue_to_emulator (pkt : List Nat) : Nat → Int → Nat → State → Run State
  | 0, _, _, _ => .nofuel
  | fuel + 1, off, len, s =>
    if len > 0 then
      if off < 0 ∨ (pkt.length : Int) < off + len then
        .outside off len
      else
        match s.wr_script with
        | [] =>
          -- n = len
          enqueue_to_emulator pkt fuel (off + len) (len - len)
            { s with pipe := s.pipe ++ (pkt.drop off.toNat).take len }
        | .wrote n :: rest =>
          -- write takes at most len bytes
          let k := min n len
          enqueue_to_emulator pkt fuel (off + k) (len - k)
            { s with wr_script := rest, pipe := s.pipe ++ (pkt.drop off.toNat).take k }
        | .eintr :: rest =>
          -- continue
          enqueue_to_emulator pkt fuel off len { s with wr_script := rest }
        | .fail :: rest =>
          -- n = -1 falls through to pkt += n; len -= n (size_t arithmetic)
          enqueue_to_emulator pkt fuel (off + (-1)) ((len + 1) % 2 ^ 64)
            { s with wr_script := rest }
    else
      .done s

/-- netsio_recv_byte (netsio.c:403): `b` is the value of the byte the caller
points to; returns the return value, the byte after the call, and the state. -/
def netsio_recv_byte : Nat → Nat → State → Run (Int × Nat × State)
  | 0, _, _ => .nofuel
  | fuel + 1, b, s =>
    match s.rd_script with
    | .eintr :: rest => netsio_recv_byte fuel b { s with rd_script := rest }
    | .fail :: rest => .done (-1, b, { s with rd_script := rest })
    | .eof :: rest => .done (-1, b, { s with rd_script := rest })
    | [] =>
      match s.pipe with
      | [] => .blocked
      | x :: xs => .done (0, x, { s with pipe := xs })

/-- Body of `case NETSIO_SPEED_CHANGE` (netsio.c:567); the local `baud` is
only logged. -/
def case_SPEED_CHANGE (n : Int) (buf : List Nat) (s : State) : Run State :=
  if n < 5 then .done s
  else .done (send_to_fujinet buf 5 s)

/-- Body of `case NETSIO_SYNC_RESPONSE` (netsio.c:589).  The local write_size
is declared uint8_t, so the 16-bit value computed from buf[4] and buf[5] is
reduced modulo 256 when it is stored. -/
def case_SYNC_RESPONSE (fuel : Nat) (n : Int) (buf : List Nat) (s : State) : Run State :=
  if n < 6 then .done s
  else
    let resp_sync := buf.getD 1 0
    let ack_type := buf.getD 2 0
    let ack_byte := buf.getD 3 0
    let write_size := u8 (buf.getD 4 0 ||| ((buf.getD 5 0 % 65536) <<< 8))
    if resp_sync ≠ s.netsio_sync_num then
      .done { s with netsio_sync_wait := 0 }
    else if ack_type = 0 then
      .done { s with netsio_sync_wait := 0 }
    else if ack_type = 1 then
      match enqueue_to_emulator [ack_byte] fuel 0 1
          { s with netsio_next_write_size := (write_size : Int) } with
      | .done s1 => .done { s1 with netsio_sync_wait := 0 }
      | r => r
    else
      .done { s with netsio_sync_wait := 0 }

/-- Body of `case NETSIO_DATA_BYTE` (netsio.c:659). -/
def case_DATA_BYTE (fuel : Nat) (n : Int) (buf : List Nat) (s : State) : Run State :=
  if n < 2 then .done s
  else
    let data := buf.getD 1 0
    enqueue_to_emulator [data] fuel 0 1 s

/-- Body of `case NETSIO_DATA_BLOCK` (netsio.c:678). -/
def case_DATA_BLOCK (fuel : Nat) (n : Int) (buf : List Nat) (s : State) : Run State :=
  if n < 2 then .done s
  else
    let payload_len := (n - 1).toNat
    enqueue_to_emulator buf fuel 1 payload_len s

/-- The switch of fujinet_rx_thread (netsio.c:506) on a datagram whose `n`
bytes are the first `n` entries of `buf`. -/
def dispatch (K : Consts) (fuel : Nat) (n : Int) (buf : List Nat) (s : State) : Run State :=
  let cmd := buf.getD 0 0
  if cmd = K.PING_REQUEST then
    .done (send_to_fujinet [u8 K.PING_RESPONSE] 1 s)
  else if cmd = K.DEVICE_CONNECTED then
    .done { s with netsio_enabled := 1 }
  else if cmd = K.DEVICE_DISCONNECTED then
    .done { s with netsio_enabled := 0 }
  else if cmd = K.ALIVE_REQUEST then
    .done (send_to_fujinet [u8 K.ALIVE_RESPONSE] 1 s)
  else if cmd = K.CREDIT_STATUS then
    .done (send_to_fujinet [u8 K.CREDIT_UPDATE, 3] 2 s)
  else if cmd = K.SPEED_CHANGE then
    case_SPEED_CHANGE n buf s
  else if cmd = K.SYNC_RESPONSE then
    case_SYNC_RESPONSE fuel n buf s
  else if cmd = K.PROCEED_ON then .done s
  else if cmd = K.PROCEED_OFF then .done s
  else if cmd = K.INTERRUPT_ON then .done s
  else if cmd = K.INTERRUPT_OFF then .done s
  else if cmd = K.DATA_BYTE then
    case_DATA_BYTE fuel n buf s
  else if cmd = K.DATA_BLOCK then
    case_DATA_BLOCK fuel n buf s
  else
    .done s

/-- One pass of the for (;;) loop of fujinet_rx_thread (netsio.c:456) in which
recvfrom returns `n`, leaves the bytes `buf` in the buffer and leaves
fujinet_addr with family AF_INET exactly when `inet`. -/
def fujinet_rx_iteration (K : Consts) (fuel : Nat) (n : Int) (buf : List Nat) (inet : Bool)
    (s : State) : Run State :=
  let s0 := { s with addr_inet := inet }
  if n ≤ 0 then
    .done s0
  else
    let s1 := { s0 with fujinet_known := 1 }
    if n < 1 then .done s1
    else dispatch K fuel n buf s1

/-- One pass of the receiver loop in which recvfrom has stored the bytes `buf`
in the receive buffer and has returned their number. -/
def receive_stored (K : Consts) (fuel : Nat) (buf : List Nat) (inet : Bool) (s : State) :
    Run State :=
  fujinet_rx_iteration K fuel (buf.length : Int) buf inet s

/-- One pass of the receiver loop on the datagram `d` from an IPv4 or other
source.  recvfrom is handed uint8_t buf[4096] and sizeof(buf) (netsio.c:452,
476): it stores the datagram, or the first 4096 bytes of a longer one, and
returns the number of bytes stored. -/
def receive (K : Consts) (fuel : Nat) (d : List Nat) (inet : Bool) (s : State) : Run State :=
  receive_stored K fuel (d.take 4096) inet s

/-- The receiver loop run over the datagrams `ds`, one pass each, in order. -/
def receive_all (K : Consts) (fuel : Nat) (inet : Bool) : List (List Nat) → State → Run State
  | [], s => .done s
  | d :: ds, s =>
    match receive K fuel d inet s with
    | .done s1 => receive_all K fuel inet ds s1
    | r => r

/-- The emulator calls netsio_recv_byte `k` times in a row; the result lists the
return value and the byte of every call. -/
def recv_bytes (fuel : Nat) : Nat → State → Run (List (Int × Nat) × State)
  | 0, s => .done ([], s)
  | k + 1, s =>
    match netsio_recv_byte fuel 0 s with
    | .done (r, b, s1) =>
      match recv_bytes fuel k s1 with
      | .done (l, s2) => .done ((r, b) :: l, s2)
      | e => e
    | .nofuel => .nofuel
    | .outside off len => .outside off len
    | .blocked => .blocked

/-- The statements of netsio_send_byte_sync up to the return of
send_to_fujinet (netsio.c:389-397): all of the function but its last store. -/
def send_byte_sync_sent (K : Consts) (b : Nat) (s : State) : State :=
  let s1 := { s with netsio_sync_num := u8 (s.netsio_sync_num + 1) }
  let p := [u8 K.DATA_BYTE_SYNC, b, s1.netsio_sync_num]
  send_to_fujinet p 3 s1

/-- The last store of netsio_send_byte_sync (netsio.c:398) and of
netsio_cmd_off_sync (netsio.c:352): netsio_sync_wait = 1. -/
def arm_sync_wait (s : State) : State :=
  { s with netsio_sync_wait := 1 }

/-- Two schedules of the emulator thread and the receiver thread.  The emulator
thread runs netsio_send_byte_sync(b) and then netsio_wait_for_sync; the receiver
thread makes one pass, on the datagram `reply`, after send_to_fujinet has
returned in the emulator thread: before the emulator's store
netsio_sync_wait = 1 when `early`, after it otherwise.  The receiver is idle
during the wait. -/
def sync_schedule (K : Consts) (early : Bool) (b : Nat) (reply : List Nat) (s : State) :
    Option State :=
  let s1 := send_byte_sync_sent K b s
  if early then
    match receive K 2 reply true s1 with
    | .done s2 => netsio_wait_for_sync (fun _ t => t) 10 (arm_sync_wait s2)
    | _ => none
  else
    match receive K 2 reply true (arm_sync_wait s1) with
    | .done s2 => netsio_wait_for_sync (fun _ t => t) 10 s2
    | _ => none

/-! Cartridge information (src/cartridge_info.c) -/

/-- The element type cart_t of the table, from cartridge.h, as the
initialisers of CARTRIDGES use it: a description and a size in KB. -/
structure cart_t where
  description : String
  kb : Int
deriving DecidableEq, Repr

/-- The table CARTRIDGES (cartridge_info.c:28), entry 0 first. -/
def CARTRIDGES : List cart_t := [
  cart_t.mk ("NONE") (0),
  cart_t.mk ("Standard 8 KB cartridge") (8),
  cart_t.mk ("Standard 16 KB cartridge") (16),
  cart_t.mk ("OSS two chip 16 KB cartridge (034M)") (16),
  cart_t.mk ("Standard 32 KB 5200 cartridge") (32),
  cart_t.mk ("DB 32 KB cartridge") (32),
  cart_t.mk ("Two chip 16 KB 5200 cartridge") (16),
  cart_t.mk ("Bounty Bob 40 KB 5200 cartridge") (40),
  cart_t.mk ("64 KB Williams cartridge") (64),
  cart_t.mk ("Express 64 KB cartridge") (64),
  cart_t.mk ("Diamond 64 KB cartridge") (64),
  cart_t.mk ("SpartaDOS X 64 KB cartridge") (64),
  cart_t.mk ("XEGS 32 KB cartridge") (32),
  cart_t.mk ("XEGS 64 KB cartridge (banks 0-7)") (64),
  cart_t.mk ("XEGS 128 KB cartridge") (128),
  cart_t.mk ("OSS one chip 16 KB cartridge") (16),
  cart_t.mk ("One chip 16 KB 5200 cartridge") (16),
  cart_t.mk ("Decoded Atrax 128 KB cartridge") (128),
  cart_t.mk ("Bounty Bob 40 KB cartridge") (40),
  cart_t.mk ("Standard 8 KB 5200 cartridge") (8),
  cart_t.mk ("Standard 4 KB 5200 cartridge") (4),
  cart_t.mk ("Right slot 8 KB cartridge") (8),
  cart_t.mk ("32 KB Williams cartridge") (32),
  cart_t.mk ("XEGS 256 KB cartridge") (256),
  cart_t.mk ("XEGS 512 KB cartridge") (512),
  cart_t.mk ("XEGS 1 MB cartridge") (1024),
  cart_t.mk ("MegaCart 16 KB cartridge") (16),
  cart_t.mk ("MegaCart 32 KB cartridge") (32),
  cart_t.mk ("MegaCart 64 KB cartridge") (64),
  cart_t.mk ("MegaCart 128 KB cartridge") (128),
  cart_t.mk ("MegaCart 256 KB cartridge") (256),
  cart_t.mk ("MegaCart 512 KB cartridge") (512),
  cart_t.mk ("MegaCart 1 MB cartridge") (1024),
  cart_t.mk ("Switchable XEGS 32 KB cartridge") (32),
  cart_t.mk ("Switchable XEGS 64 KB cartridge") (64),
  cart_t.mk ("Switchable XEGS 128 KB cartridge") (128),
  cart_t.mk ("Switchable XEGS 256 KB cartridge") (256),
  cart_t.mk ("Switchable XEGS 512 KB cartridge") (512),
  cart_t.mk ("Switchable XEGS 1 MB cartridge") (1024),
  cart_t.mk ("Phoenix 8 KB cartridge") (8),
  cart_t.mk ("Blizzard 16 KB cartridge") (16),
  cart_t.mk ("Atarimax 128 KB Flash cartridge") (128),
  cart_t.mk ("Atarimax 1 MB Flash cartridge (old)") (1024),
  cart_t.mk ("SpartaDOS X 128 KB cartridge") (128),
  cart_t.mk ("OSS 8 KB cartridge") (8),
  cart_t.mk ("OSS two chip 16 KB cartridge (043M)") (16),
  cart_t.mk ("Blizzard 4 KB cartridge") (4),
  cart_t.mk ("AST 32 KB cartridge") (32),
  cart_t.mk ("Atrax SDX 64 KB cartridge") (64),
  cart_t.mk ("Atrax SDX 128 KB cartridge") (128),
  cart_t.mk ("Turbosoft 64 KB cartridge") (64),
  cart_t.mk ("Turbosoft 128 KB cartridge") (128),
  cart_t.mk ("Ultracart 32 KB cartridge") (32),
  cart_t.mk ("Low bank 8 KB cartridge") (8),
  cart_t.mk ("SIC! 128 KB cartridge") (128),
  cart_t.mk ("SIC! 256 KB cartridge") (256),
  cart_t.mk ("SIC! 512 KB cartridge") (512),
  cart_t.mk ("Standard 2 KB cartridge") (2),
  cart_t.mk ("Standard 4 KB cartridge") (4),
  cart_t.mk ("Right slot 4 KB cartridge") (4),
  cart_t.mk ("Blizzard 32 KB cartridge") (32),
  cart_t.mk ("MegaMax 2 MB cartridge") (2048),
  cart_t.mk ("The!Cart 128 MB cartridge") (128 * 1024),
  cart_t.mk ("Flash MegaCart 4 MB cartridge") (4 * 1024),
  cart_t.mk ("MegaCart 2 MB cartridge") (2 * 1024),
  cart_t.mk ("The!Cart 32 MB cartridge") (32 * 1024),
  cart_t.mk ("The!Cart 64 MB cartridge") (64 * 1024),
  cart_t.mk ("XEGS 64 KB cartridge (banks 8-15)") (64),
  cart_t.mk ("Atrax 128 KB cartridge") (128),
  cart_t.mk ("aDawliah 32 KB cartridge") (32),
  cart_t.mk ("aDawliah 64 KB cartridge") (64),
  cart_t.mk ("Super Cart 64 KB 5200 cartridge") (64),
  cart_t.mk ("Super Cart 128 KB 5200 cartridge") (128),
  cart_t.mk ("Super Cart 256 KB 5200 cartridge") (256),
  cart_t.mk ("Super Cart 512 KB 5200 cartridge") (512),
  cart_t.mk ("Atarimax 1 MB Flash cartridge (new)") (1024),
  cart_t.mk ("16 KB Williams cartridge") (16),
  cart_t.mk ("MIO diagnostics 8KB cartridge") (8),
  cart_t.mk ("Telelink II cartridge") (8),
  cart_t.mk ("Pronto cartridge") (16),
  cart_t.mk ("JRC64 cartridge (linear)") (64),
  cart_t.mk ("MDDOS cartridge") (64),
  cart_t.mk ("COS32 cartridge") (32),
  cart_t.mk ("SIC+ 1024 KB cartridge") (1024),
  cart_t.mk ("Corina 1M + 8K EEPROM cartridge") (1024),
  cart_t.mk ("Corina 512K + 512K SRAM + 8K EEPROM cartridge") (512),
  cart_t.mk ("XE Multicart (8KB) cartridge") (8),
  cart_t.mk ("XE Multicart (16KB) cartridge") (16),
  cart_t.mk ("XE Multicart (32KB) cartridge") (32),
  cart_t.mk ("XE Multicart (64KB) cartridge") (64),
  cart_t.mk ("XE Multicart (128KB) cartridge") (128),
  cart_t.mk ("XE Multicart (256KB) cartridge") (256),
  cart_t.mk ("XE Multicart (512KB) cartridge") (512),
  cart_t.mk ("XE Multicart (1024KB) cartridge") (1024),
  cart_t.mk ("Ram-Cart 64 KB cartridge") (64),
  cart_t.mk ("Ram-Cart 128 KB cartridge") (128),
  cart_t.mk ("Double Ram-Cart 256 KB cartridge") (256),
  cart_t.mk ("Ram-Cart 1 MB cartridge") (1 * 1024),
  cart_t.mk ("Ram-Cart 2 MB cartridge") (2 * 1024),
  cart_t.mk ("Ram-Cart 4 MB cartridge") (4 * 1024),
  cart_t.mk ("Ram-Cart 8 MB cartridge") (8 * 1024),
  cart_t.mk ("Ram-Cart 16 MB cartridge") (16 * 1024),
  cart_t.mk ("Ram-Cart 32 MB cartridge") (32 * 1024),
  cart_t.mk ("SiDiCar 32 KB cartridge") (32),
  cart_t.mk ("J(atari)Cart8(kB) cartridge") (8),
  cart_t.mk ("J(atari)Cart16(kB) cartridge") (16),
  cart_t.mk ("J(atari)Cart32(kB) cartridge") (32),
  cart_t.mk ("J(atari)Cart64(kB) cartridge") (64),
  cart_t.mk ("J(atari)Cart128(kB) cartridge") (128),
  cart_t.mk ("J(atari)Cart256(kB) cartridge") (256),
  cart_t.mk ("J(atari)Cart512(kB) cartridge") (512),
  cart_t.mk ("J(atari)Cart1024(kB) cartridge") (1024),
  cart_t.mk ("DCart cartridge") (512),
  cart_t.mk ("") (0),
  cart_t.mk ("") (0),
  cart_t.mk ("") (0),
  cart_t.mk ("") (0),
  cart_t.mk ("") (0),
  cart_t.mk ("") (0),
  cart_t.mk ("") (0),
  cart_t.mk ("") (0),
  cart_t.mk ("") (0),
  cart_t.mk ("") (0),
  cart_t.mk ("") (0),
  cart_t.mk ("") (0),
  cart_t.mk ("") (0),
  cart_t.mk ("") (0),
  cart_t.mk ("") (0),
  cart_t.mk ("") (0),
  cart_t.mk ("") (0),
  cart_t.mk ("") (0),
  cart_t.mk ("") (0),
  cart_t.mk ("") (0),
  cart_t.mk ("") (0),
  cart_t.mk ("") (0),
  cart_t.mk ("") (0),
  cart_t.mk ("") (0),
  cart_t.mk ("") (0),
  cart_t.mk ("") (0),
  cart_t.mk ("") (0),
  cart_t.mk ("") (0),
  cart_t.mk ("") (0),
  cart_t.mk ("") (0),
  cart_t.mk ("") (0),
  cart_t.mk ("") (0),
  cart_t.mk ("") (0),
  cart_t.mk ("") (0),
  cart_t.mk ("") (0),
  cart_t.mk ("") (0),
  cart_t.mk ("") (0),
  cart_t.mk ("") (0),
  cart_t.mk ("") (0),
  cart_t.mk ("") (0),
  cart_t.mk ("") (0),
  cart_t.mk ("") (0),
  cart_t.mk ("") (0),
  cart_t.mk ("") (0),
  cart_t.mk ("") (0),
  cart_t.mk ("") (0),
  cart_t.mk ("Bounty Bob 40 KB 5200 cartridge (alt.)") (40),
  cart_t.mk ("JRC64 cartridge (interleaved)") (64)
]

/-- An int expression brought into the range of a 32-bit int.  Signed overflow
is undefined in C; the model wraps modulo 2^32, as two's-complement hardware
does. -/
def wrap_int32 (x : Int) : Int := (x + 2 ^ 31) % 2 ^ 32 - 2 ^ 31

/-- The loop of CARTRIDGE_Checksum: `image` is the caller's array of UBYTE
(unsigned bytes) and `i` the position the moving pointer has reached. -/
def checksum_loop (image : List Nat) : Nat → Nat → Int → Int → Run Int
  | 0, _, _, _ => .nofuel
  | fuel + 1, i, nbytes, checksum =>
    if nbytes > 0 then
      match image[i]? with
      | some x => checksum_loop image fuel (i + 1) (nbytes - 1) (wrap_int32 (checksum + (x : Int)))
      | none => .outside (i : Int) 1
    else
      .done checksum

/-- CARTRIDGE_Checksum (cartridge_info.c:197). -/
def CARTRIDGE_Checksum (fuel : Nat) (image : List Nat) (nbytes : Int) : Run Int :=
  checksum_loop image fuel 0 nbytes 0

/-- The largest size, in KB, of an entry of CARTRIDGES. -/
def largest_kb : Int := (CARTRIDGES.map cart_t.kb).foldl max 0

/-! ## Assumptions on the environment and sample inputs -/

/-- A receiver that never clears netsio_sync_wait and never sleeps on behalf of
the emulator thread. -/
def QuietReceiver (rx : Nat → State → State) : Prop :=
  ∀ k t, (t.netsio_sync_wait ≠ 0 → (rx k t).netsio_sync_wait ≠ 0) ∧ (rx k t).slept = t.slept

/-- The state in which a synchronous send has just set netsio_sync_wait. -/
def pending_start : State := { State.init with netsio_sync_wait := 1 }

/-- A write result under which the FIFO works: bytes are taken (at least one),
or the call was interrupted and is to be repeated. -/
def WriteRes.healthy : WriteRes → Bool
  | .wrote n => decide (1 ≤ n)
  | .eintr => true
  | .fail => false

/-- The FIFO works: no write fails with an errno other than EINTR, and no
write returns 0. -/
def PipeWorks (s : State) : Prop := s.wr_script.all WriteRes.healthy = true

instance (s : State) : Decidable (PipeWorks s) := by
  unfold PipeWorks; infer_instance

/-- The peer is known and its address is an IPv4 address. -/
def PeerKnown (s : State) : Prop := s.fujinet_known ≠ 0 ∧ s.addr_inet = true

instance (s : State) : Decidable (PeerKnown s) := by
  unfold PeerKnown; infer_instance

/-- A state with a known IPv4 peer and the sequence counter at `seq`. -/
def known_peer (seq : Nat) : State :=
  { State.init with fujinet_known := 1, addr_inet := true, netsio_sync_num := seq }

/-- The network works: every sendto sends its datagram in full. -/
def NetWorks (s : State) : Prop := s.tx_script = []

instance (s : State) : Decidable (NetWorks s) := by
  unfold NetWorks; infer_instance

/-- Reads of the FIFO are at most interrupted: none fails with another errno
and none sees end of file. -/
def ReadsWork (s : State) : Prop := s.rd_script.all (fun r => decide (r = ReadRes.eintr)) = true

instance (s : State) : Decidable (ReadsWork s) := by
  unfold ReadsWork; infer_instance

/-- The bytes a DATA_BYTE or DATA_BLOCK datagram delivers: byte 1 of a
DATA_BYTE; of a DATA_BLOCK the bytes after the command byte that the
4096-byte receive buffer holds, which is all of them unless the datagram is
longer than 4096 bytes. -/
def payload (K : Consts) (d : List Nat) : List Nat :=
  if d.getD 0 0 = K.DATA_BYTE then [d.getD 1 0] else (d.take 4096).drop 1

/-- A DATA_BLOCK datagram of 4097 bytes: the command byte and 4096 payload
bytes. -/
def oversize_block : List Nat := 0x02 :: List.replicate 4096 7

/-- The payloads of the datagrams `ds`, concatenated in order. -/
def payloads (K : Consts) : List (List Nat) → List Nat
  | [] => []
  | d :: ds => payload K d ++ payloads K ds

/-- What the switch of the receiver may change, seen from the other fields:
one pass leaves netsio_sync_num, fujinet_known, netsio_cmd_state, the source
address, the log of sleeps and the read script alone, leaves netsio_enabled
alone unless told otherwise by `en`, and either leaves netsio_sync_wait alone
or clears it. -/
def DispatchFrame (en : Prop) (s s1 : State) : Prop :=
  s1.netsio_sync_num = s.netsio_sync_num ∧ s1.fujinet_known = s.fujinet_known ∧
    s1.netsio_cmd_state = s.netsio_cmd_state ∧ s1.addr_inet = s.addr_inet ∧
    s1.slept = s.slept ∧ s1.rd_script = s.rd_script ∧
    (en → s1.netsio_enabled = s.netsio_enabled) ∧
    (s1.netsio_sync_wait = s.netsio_sync_wait ∨ s1.netsio_sync_wait = 0)


/-- A call made from state `s` returns, and the FIFO works after it as it did
before (the write script only got shorter). -/
def ReturnsWorking (s : State) (r : Run State) : Prop :=
  ∃ s1, r = .done s1 ∧ PipeWorks s1 ∧ s1.wr_script.length ≤ s.wr_script.length


/-- The state of a late reply: netsio_send_byte_sync(0x42) to a known peer was
followed by a netsio_wait_for_sync that ran to its timeout (no reply came in
time). -/
def after_timeout : State :=
  (netsio_wait_for_sync (fun _ t => t) 9
    (netsio_send_byte_sync netsio_h 0x42 (known_peer 0)).2).getD State.init


/-- A FIFO that already holds one byte and whose next writes take 2 bytes, are
interrupted, take 1 byte, are interrupted twice, and take 2 bytes. -/
def split_writes : State :=
  { State.init with
      pipe := [9],
      wr_script := [.wrote 2, .eintr, .wrote 1, .eintr, .eintr, .wrote 2] }


/-! ## Theorems -/

/-! ### The switch selects the case of its label -/

theorem labels_distinct (K : Consts) (hK : K.WF) (i j : Nat) (hi : i < 13) (hj : j < 13)
    (hij : i ≠ j) : K.labels.getD i 0 ≠ K.labels.getD j 0 := by
  have hl : K.labels.length = 13 := rfl
  intro h
  apply hij
  have h1 : K.labels.get ⟨i, by omega⟩ = K.labels.get ⟨j, by omega⟩ := by
    simpa [List.getD_eq_getElem, hl, hi, hj] using h
  have := (List.Nodup.get_inj_iff hK.1).1 h1
  simpa using this

theorem dispatch_SPEED_CHANGE (K : Consts) (hK : K.WF) (fuel : Nat) (n : Int) (buf : List Nat)
    (s : State) (h : buf.getD 0 0 = K.SPEED_CHANGE) :
    dispatch K fuel n buf s = case_SPEED_CHANGE n buf s := by
  have e0 : K.SPEED_CHANGE ≠ K.PING_REQUEST := labels_distinct K hK 5 0 (by decide) (by decide) (by decide)
  have e1 : K.SPEED_CHANGE ≠ K.DEVICE_CONNECTED := labels_distinct K hK 5 1 (by decide) (by decide) (by decide)
  have e2 : K.SPEED_CHANGE ≠ K.DEVICE_DISCONNECTED := labels_distinct K hK 5 2 (by decide) (by decide) (by decide)
  have e3 : K.SPEED_CHANGE ≠ K.ALIVE_REQUEST := labels_distinct K hK 5 3 (by decide) (by decide) (by decide)
  have e4 : K.SPEED_CHANGE ≠ K.CREDIT_STATUS := labels_distinct K hK 5 4 (by decide) (by decide) (by decide)
  simp only [dispatch, h, e0, e1, e2, e3, e4, if_false, if_true]

theorem dispatch_SYNC_RESPONSE (K : Consts) (hK : K.WF) (fuel : Nat) (n : Int) (buf : List Nat)
    (s : State) (h : buf.getD 0 0 = K.SYNC_RESPONSE) :
    dispatch K fuel n buf s = case_SYNC_RESPONSE fuel n buf s := by
  have e0 : K.SYNC_RESPONSE ≠ K.PING_REQUEST := labels_distinct K hK 6 0 (by decide) (by decide) (by decide)
  have e1 : K.SYNC_RESPONSE ≠ K.DEVICE_CONNECTED := labels_distinct K hK 6 1 (by decide) (by decide) (by decide)
  have e2 : K.SYNC_RESPONSE ≠ K.DEVICE_DISCONNECTED := labels_distinct K hK 6 2 (by decide) (by decide) (by decide)
  have e3 : K.SYNC_RESPONSE ≠ K.ALIVE_REQUEST := labels_distinct K hK 6 3 (by decide) (by decide) (by decide)
  have e4 : K.SYNC_RESPONSE ≠ K.CREDIT_STATUS := labels_distinct K hK 6 4 (by decide) (by decide) (by decide)
  have e5 : K.SYNC_RESPONSE ≠ K.SPEED_CHANGE := labels_distinct K hK 6 5 (by decide) (by decide) (by decide)
  simp only [dispatch, h, e0, e1, e2, e3, e4, e5, if_false, if_true]

theorem dispatch_DATA_BYTE (K : Consts) (hK : K.WF) (fuel : Nat) (n : Int) (buf : List Nat)
    (s : State) (h : buf.getD 0 0 = K.DATA_BYTE) :
    dispatch K fuel n buf s = case_DATA_BYTE fuel n buf s := by
  have e0 : K.DATA_BYTE ≠ K.PING_REQUEST := labels_distinct K hK 11 0 (by decide) (by decide) (by decide)
  have e1 : K.DATA_BYTE ≠ K.DEVICE_CONNECTED := labels_distinct K hK 11 1 (by decide) (by decide) (by decide)
  have e2 : K.DATA_BYTE ≠ K.DEVICE_DISCONNECTED := labels_distinct K hK 11 2 (by decide) (by decide) (by decide)
  have e3 : K.DATA_BYTE ≠ K.ALIVE_REQUEST := labels_distinct K hK 11 3 (by decide) (by decide) (by decide)
  have e4 : K.DATA_BYTE ≠ K.CREDIT_STATUS := labels_distinct K hK 11 4 (by decide) (by decide) (by decide)
  have e5 : K.DATA_BYTE ≠ K.SPEED_CHANGE := labels_distinct K hK 11 5 (by decide) (by decide) (by decide)
  have e6 : K.DATA_BYTE ≠ K.SYNC_RESPONSE := labels_distinct K hK 11 6 (by decide) (by decide) (by decide)
  have e7 : K.DATA_BYTE ≠ K.PROCEED_ON := labels_distinct K hK 11 7 (by decide) (by decide) (by decide)
  have e8 : K.DATA_BYTE ≠ K.PROCEED_OFF := labels_distinct K hK 11 8 (by decide) (by decide) (by decide)
  have e9 : K.DATA_BYTE ≠ K.INTERRUPT_ON := labels_distinct K hK 11 9 (by decide) (by decide) (by decide)
  have e10 : K.DATA_BYTE ≠ K.INTERRUPT_OFF := labels_distinct K hK 11 10 (by decide) (by decide) (by decide)
  simp only [dispatch, h, e0, e1, e2, e3, e4, e5, e6, e7, e8, e9, e10, if_false, if_true]

theorem dispatch_DATA_BLOCK (K : Consts) (hK : K.WF) (fuel : Nat) (n : Int) (buf : List Nat)
    (s : State) (h : buf.getD 0 0 = K.DATA_BLOCK) :
    dispatch K fuel n buf s = case_DATA_BLOCK fuel n buf s := by
  have e0 : K.DATA_BLOCK ≠ K.PING_REQUEST := labels_distinct K hK 12 0 (by decide) (by decide) (by decide)
  have e1 : K.DATA_BLOCK ≠ K.DEVICE_CONNECTED := labels_distinct K hK 12 1 (by decide) (by decide) (by decide)
  have e2 : K.DATA_BLOCK ≠ K.DEVICE_DISCONNECTED := labels_distinct K hK 12 2 (by decide) (by decide) (by decide)
  have e3 : K.DATA_BLOCK ≠ K.ALIVE_REQUEST := labels_distinct K hK 12 3 (by decide) (by decide) (by decide)
  have e4 : K.DATA_BLOCK ≠ K.CREDIT_STATUS := labels_distinct K hK 12 4 (by decide) (by decide) (by decide)
  have e5 : K.DATA_BLOCK ≠ K.SPEED_CHANGE := labels_distinct K hK 12 5 (by decide) (by decide) (by decide)
  have e6 : K.DATA_BLOCK ≠ K.SYNC_RESPONSE := labels_distinct K hK 12 6 (by decide) (by decide) (by decide)
  have e7 : K.DATA_BLOCK ≠ K.PROCEED_ON := labels_distinct K hK 12 7 (by decide) (by decide) (by decide)
  have e8 : K.DATA_BLOCK ≠ K.PROCEED_OFF := labels_distinct K hK 12 8 (by decide) (by decide) (by decide)
  have e9 : K.DATA_BLOCK ≠ K.INTERRUPT_ON := labels_distinct K hK 12 9 (by decide) (by decide) (by decide)
  have e10 : K.DATA_BLOCK ≠ K.INTERRUPT_OFF := labels_distinct K hK 12 10 (by decide) (by decide) (by decide)
  have e11 : K.DATA_BLOCK ≠ K.DATA_BYTE := labels_distinct K hK 12 11 (by decide) (by decide) (by decide)
  simp only [dispatch, h, e0, e1, e2, e3, e4, e5, e6, e7, e8, e9, e10, e11, if_false, if_true]

theorem dispatch_PING_REQUEST (K : Consts) (hK : K.WF) (fuel : Nat) (n : Int) (buf : List Nat)
    (s : State) (h : buf.getD 0 0 = K.PING_REQUEST) :
    dispatch K fuel n buf s = .done (send_to_fujinet [u8 K.PING_RESPONSE] 1 s) := by
  have _ := hK
  simp only [dispatch, h, if_false, if_true]

theorem dispatch_DEVICE_CONNECTED (K : Consts) (hK : K.WF) (fuel : Nat) (n : Int) (buf : List Nat)
    (s : State) (h : buf.getD 0 0 = K.DEVICE_CONNECTED) :
    dispatch K fuel n buf s = .done { s with netsio_enabled := 1 } := by
  have e0 : K.DEVICE_CONNECTED ≠ K.PING_REQUEST := labels_distinct K hK 1 0 (by decide) (by decide) (by decide)
  simp only [dispatch, h, e0, if_false, if_true]

theorem dispatch_DEVICE_DISCONNECTED (K : Consts) (hK : K.WF) (fuel : Nat) (n : Int) (buf : List Nat)
    (s : State) (h : buf.getD 0 0 = K.DEVICE_DISCONNECTED) :
    dispatch K fuel n buf s = .done { s with netsio_enabled := 0 } := by
  have e0 : K.DEVICE_DISCONNECTED ≠ K.PING_REQUEST := labels_distinct K hK 2 0 (by decide) (by decide) (by decide)
  have e1 : K.DEVICE_DISCONNECTED ≠ K.DEVICE_CONNECTED := labels_distinct K hK 2 1 (by decide) (by decide) (by decide)
  simp only [dispatch, h, e0, e1, if_false, if_true]

theorem dispatch_ALIVE_REQUEST (K : Consts) (hK : K.WF) (fuel : Nat) (n : Int) (buf : List Nat)
    (s : State) (h : buf.getD 0 0 = K.ALIVE_REQUEST) :
    dispatch K fuel n buf s = .done (send_to_fujinet [u8 K.ALIVE_RESPONSE] 1 s) := by
  have e0 : K.ALIVE_REQUEST ≠ K.PING_REQUEST := labels_distinct K hK 3 0 (by decide) (by decide) (by decide)
  have e1 : K.ALIVE_REQUEST ≠ K.DEVICE_CONNECTED := labels_distinct K hK 3 1 (by decide) (by decide) (by decide)
  have e2 : K.ALIVE_REQUEST ≠ K.DEVICE_DISCONNECTED := labels_distinct K hK 3 2 (by decide) (by decide) (by decide)
  simp only [dispatch, h, e0, e1, e2, if_false, if_true]

theorem dispatch_CREDIT_STATUS (K : Consts) (hK : K.WF) (fuel : Nat) (n : Int) (buf : List Nat)
    (s : State) (h : buf.getD 0 0 = K.CREDIT_STATUS) :
    dispatch K fuel n buf s = .done (send_to_fujinet [u8 K.CREDIT_UPDATE, 3] 2 s) := by
  have e0 : K.CREDIT_STATUS ≠ K.PING_REQUEST := labels_distinct K hK 4 0 (by decide) (by decide) (by decide)
  have e1 : K.CREDIT_STATUS ≠ K.DEVICE_CONNECTED := labels_distinct K hK 4 1 (by decide) (by decide) (by decide)
  have e2 : K.CREDIT_STATUS ≠ K.DEVICE_DISCONNECTED := labels_distinct K hK 4 2 (by decide) (by decide) (by decide)
  have e3 : K.CREDIT_STATUS ≠ K.ALIVE_REQUEST := labels_distinct K hK 4 3 (by decide) (by decide) (by decide)
  simp only [dispatch, h, e0, e1, e2, e3, if_false, if_true]

theorem dispatch_PROCEED_ON (K : Consts) (hK : K.WF) (fuel : Nat) (n : Int) (buf : List Nat)
    (s : State) (h : buf.getD 0 0 = K.PROCEED_ON) :
    dispatch K fuel n buf s = .done s := by
  have e0 : K.PROCEED_ON ≠ K.PING_REQUEST := labels_distinct K hK 7 0 (by decide) (by decide) (by decide)
  have e1 : K.PROCEED_ON ≠ K.DEVICE_CONNECTED := labels_distinct K hK 7 1 (by decide) (by decide) (by decide)
  have e2 : K.PROCEED_ON ≠ K.DEVICE_DISCONNECTED := labels_distinct K hK 7 2 (by decide) (by decide) (by decide)
  have e3 : K.PROCEED_ON ≠ K.ALIVE_REQUEST := labels_distinct K hK 7 3 (by decide) (by decide) (by decide)
  have e4 : K.PROCEED_ON ≠ K.CREDIT_STATUS := labels_distinct K hK 7 4 (by decide) (by decide) (by decide)
  have e5 : K.PROCEED_ON ≠ K.SPEED_CHANGE := labels_distinct K hK 7 5 (by decide) (by decide) (by decide)
  have e6 : K.PROCEED_ON ≠ K.SYNC_RESPONSE := labels_distinct K hK 7 6 (by decide) (by decide) (by decide)
  simp only [dispatch, h, e0, e1, e2, e3, e4, e5, e6, if_false, if_true]

theorem dispatch_PROCEED_OFF (K : Consts) (hK : K.WF) (fuel : Nat) (n : Int) (buf : List Nat)
    (s : State) (h : buf.getD 0 0 = K.PROCEED_OFF) :
    dispatch K fuel n buf s = .done s := by
  have e0 : K.PROCEED_OFF ≠ K.PING_REQUEST := labels_distinct K hK 8 0 (by decide) (by decide) (by decide)
  have e1 : K.PROCEED_OFF ≠ K.DEVICE_CONNECTED := labels_distinct K hK 8 1 (by decide) (by decide) (by decide)
  have e2 : K.PROCEED_OFF ≠ K.DEVICE_DISCONNECTED := labels_distinct K hK 8 2 (by decide) (by decide) (by decide)
  have e3 : K.PROCEED_OFF ≠ K.ALIVE_REQUEST := labels_distinct K hK 8 3 (by decide) (by decide) (by decide)
  have e4 : K.PROCEED_OFF ≠ K.CREDIT_STATUS := labels_distinct K hK 8 4 (by decide) (by decide) (by decide)
  have e5 : K.PROCEED_OFF ≠ K.SPEED_CHANGE := labels_distinct K hK 8 5 (by decide) (by decide) (by decide)
  have e6 : K.PROCEED_OFF ≠ K.SYNC_RESPONSE := labels_distinct K hK 8 6 (by decide) (by decide) (by decide)
  have e7 : K.PROCEED_OFF ≠ K.PROCEED_ON := labels_distinct K hK 8 7 (by decide) (by decide) (by decide)
  simp only [dispatch, h, e0, e1, e2, e3, e4, e5, e6, e7, if_false, if_true]

theorem dispatch_INTERRUPT_ON (K : Consts) (hK : K.WF) (fuel : Nat) (n : Int) (buf : List Nat)
    (s : State) (h : buf.getD 0 0 = K.INTERRUPT_ON) :
    dispatch K fuel n buf s = .done s := by
  have e0 : K.INTERRUPT_ON ≠ K.PING_REQUEST := labels_distinct K hK 9 0 (by decide) (by decide) (by decide)
  have e1 : K.INTERRUPT_ON ≠ K.DEVICE_CONNECTED := labels_distinct K hK 9 1 (by decide) (by decide) (by decide)
  have e2 : K.INTERRUPT_ON ≠ K.DEVICE_DISCONNECTED := labels_distinct K hK 9 2 (by decide) (by decide) (by decide)
  have e3 : K.INTERRUPT_ON ≠ K.ALIVE_REQUEST := labels_distinct K hK 9 3 (by decide) (by decide) (by decide)
  have e4 : K.INTERRUPT_ON ≠ K.CREDIT_STATUS := labels_distinct K hK 9 4 (by decide) (by decide) (by decide)
  have e5 : K.INTERRUPT_ON ≠ K.SPEED_CHANGE := labels_distinct K hK 9 5 (by decide) (by decide) (by decide)
  have e6 : K.INTERRUPT_ON ≠ K.SYNC_RESPONSE := labels_distinct K hK 9 6 (by decide) (by decide) (by decide)
  have e7 : K.INTERRUPT_ON ≠ K.PROCEED_ON := labels_distinct K hK 9 7 (by decide) (by decide) (by decide)
  have e8 : K.INTERRUPT_ON ≠ K.PROCEED_OFF := labels_distinct K hK 9 8 (by decide) (by decide) (by decide)
  simp only [dispatch, h, e0, e1, e2, e3, e4, e5, e6, e7, e8, if_false, if_true]

theorem dispatch_INTERRUPT_OFF (K : Consts) (hK : K.WF) (fuel : Nat) (n : Int) (buf : List Nat)
    (s : State) (h : buf.getD 0 0 = K.INTERRUPT_OFF) :
    dispatch K fuel n buf s = .done s := by
  have e0 : K.INTERRUPT_OFF ≠ K.PING_REQUEST := labels_distinct K hK 10 0 (by decide) (by decide) (by decide)
  have e1 : K.INTERRUPT_OFF ≠ K.DEVICE_CONNECTED := labels_distinct K hK 10 1 (by decide) (by decide) (by decide)
  have e2 : K.INTERRUPT_OFF ≠ K.DEVICE_DISCONNECTED := labels_distinct K hK 10 2 (by decide) (by decide) (by decide)
  have e3 : K.INTERRUPT_OFF ≠ K.ALIVE_REQUEST := labels_distinct K hK 10 3 (by decide) (by decide) (by decide)
  have e4 : K.INTERRUPT_OFF ≠ K.CREDIT_STATUS := labels_distinct K hK 10 4 (by decide) (by decide) (by decide)
  have e5 : K.INTERRUPT_OFF ≠ K.SPEED_CHANGE := labels_distinct K hK 10 5 (by decide) (by decide) (by decide)
  have e6 : K.INTERRUPT_OFF ≠ K.SYNC_RESPONSE := labels_distinct K hK 10 6 (by decide) (by decide) (by decide)
  have e7 : K.INTERRUPT_OFF ≠ K.PROCEED_ON := labels_distinct K hK 10 7 (by decide) (by decide) (by decide)
  have e8 : K.INTERRUPT_OFF ≠ K.PROCEED_OFF := labels_distinct K hK 10 8 (by decide) (by decide) (by decide)
  have e9 : K.INTERRUPT_OFF ≠ K.INTERRUPT_ON := labels_distinct K hK 10 9 (by decide) (by decide) (by decide)
  simp only [dispatch, h, e0, e1, e2, e3, e4, e5, e6, e7, e8, e9, if_false, if_true]

theorem dispatch_default (K : Consts) (fuel : Nat) (n : Int) (buf : List Nat) (s : State)
    (h : buf.getD 0 0 ∉ K.labels) : dispatch K fuel n buf s = .done s := by
  simp only [Consts.labels, List.mem_cons, List.mem_singleton, List.not_mem_nil, or_false,
    not_or] at h
  obtain ⟨h0, h1, h2, h3, h4, h5, h6, h7, h8, h9, h10, h11, h12⟩ := h
  simp only [dispatch, h0, h1, h2, h3, h4, h5, h6, h7, h8, h9, h10, h11, h12, if_false]


/-! ### The FIFO -/

theorem take_drop_split (pkt : List Nat) (off k len : Nat) (hk : k ≤ len) :
    (pkt.drop off).take k ++ (pkt.drop (off + k)).take (len - k) = (pkt.drop off).take len := by
  have h : len = k + (len - k) := by omega
  conv_rhs => rw [h, List.take_add, List.drop_drop]

theorem enqueue_works (pkt : List Nat) :
    ∀ (fuel off len : Nat) (s : State), off + len ≤ pkt.length → PipeWorks s →
      s.wr_script.length + min len 1 + 1 ≤ fuel →
      ∃ s1, enqueue_to_emulator pkt fuel (off : Int) len s = .done s1 ∧
        s1 = { s with pipe := s.pipe ++ (pkt.drop off).take len, wr_script := s1.wr_script } ∧
        PipeWorks s1 ∧ s1.wr_script.length ≤ s.wr_script.length := by
  intro fuel
  induction fuel with
  | zero => intro off len s _ _ hf; omega
  | succ fuel ih =>
    intro off len s hb hw hf
    by_cases hlen : len = 0
    · subst hlen
      exact ⟨s, by simp [enqueue_to_emulator], by simp, hw, le_refl _⟩
    · have hpos : len > 0 := Nat.pos_of_ne_zero hlen
      have hin : ¬ ((off : Int) < 0 ∨ (pkt.length : Int) < (off : Int) + (len : Int)) := by omega
      rcases hscr : s.wr_script with _ | ⟨r, rest⟩
      · obtain ⟨s1, h1, h2, h3, h4⟩ := ih (off + len) 0
          { s with pipe := s.pipe ++ (pkt.drop off).take len } (by omega)
          (by simpa [PipeWorks] using hw)
          (by simp only [hscr, List.length_nil] at hf ⊢; omega)
        refine ⟨s1, ?_, ?_, h3, by simpa [hscr] using h4⟩
        · rw [← h1]
          simp only [enqueue_to_emulator, hpos, if_true, hin, if_false, hscr]
          simp
        · rw [h2]; simp
      · have hw2 : r.healthy = true ∧ rest.all WriteRes.healthy = true := by
          simpa [PipeWorks, hscr] using hw
        cases r with
        | wrote n =>
          have hn : 1 ≤ n := by simpa [WriteRes.healthy] using hw2.1
          have hk : min n len ≤ len := Nat.min_le_right _ _
          obtain ⟨s1, h1, h2, h3, h4⟩ := ih (off + min n len) (len - min n len)
            { s with wr_script := rest, pipe := s.pipe ++ (pkt.drop off).take (min n len) }
            (by omega) (by simpa [PipeWorks] using hw2.2)
            (by simp only [hscr, List.length_cons] at hf ⊢; omega)
          refine ⟨s1, ?_, ?_, h3, by simp only [List.length_cons]; simp only [] at h4; omega⟩
          · rw [← h1]
            simp only [enqueue_to_emulator, hpos, if_true, hin, if_false, hscr]
            simp
          · rw [h2]
            simp [List.append_assoc, take_drop_split pkt off (min n len) len hk]
        | eintr =>
          obtain ⟨s1, h1, h2, h3, h4⟩ := ih off len { s with wr_script := rest } hb
            (by simpa [PipeWorks] using hw2.2)
            (by simp only [hscr, List.length_cons] at hf ⊢; omega)
          refine ⟨s1, ?_, ?_, h3, by simp only [List.length_cons]; simp only [] at h4; omega⟩
          · rw [← h1]
            simp only [enqueue_to_emulator, hpos, if_true, hin, if_false, hscr]
          · rw [h2]
        | fail => simp [WriteRes.healthy] at hw2

theorem enqueue_one (x : Nat) (fuel : Nat) (s : State) (hw : PipeWorks s)
    (hf : s.wr_script.length + 2 ≤ fuel) :
    ∃ s1, enqueue_to_emulator [x] fuel 0 1 s = .done s1 ∧
      s1 = { s with pipe := s.pipe ++ [x], wr_script := s1.wr_script } ∧
      PipeWorks s1 ∧ s1.wr_script.length ≤ s.wr_script.length := by
  obtain ⟨s1, h1, h2, h3, h4⟩ := enqueue_works [x] fuel 0 1 s (by simp) hw (by simpa using hf)
  exact ⟨s1, by simpa using h1, by simpa using h2, h3, h4⟩

/-! ### Sending -/

theorem u8_of_lt (x : Nat) (h : x < 256) : u8 x = x := Nat.mod_eq_of_lt h

theorem send_to_fujinet_known (pkt : List Nat) (len : Nat) (s : State) (hp : PeerKnown s)
    (hn : NetWorks s) :
    send_to_fujinet pkt len s =
      { s with sendto_log := s.sendto_log ++ [(pkt.take len, .ok (pkt.take len).length)] } := by
  have h : ¬ (s.fujinet_known = 0 ∨ s.addr_inet = false) := by
    rcases hp with ⟨h1, h2⟩
    simp [h1, h2]
  have hs : s.tx_script = [] := hn
  simp only [send_to_fujinet, h, if_false, sendto, hs]
  split_ifs <;> rfl

theorem send_byte_sync_known (K : Consts) (hK : K.WF) (b : Nat) (s : State) (hp : PeerKnown s)
    (hn : NetWorks s) :
    netsio_send_byte_sync K b s =
      (0, { s with netsio_sync_num := u8 (s.netsio_sync_num + 1), netsio_sync_wait := 1,
                   sendto_log := s.sendto_log ++
                     [([K.DATA_BYTE_SYNC, b, u8 (s.netsio_sync_num + 1)], .ok 3)] }) := by
  have hc : u8 K.DATA_BYTE_SYNC = K.DATA_BYTE_SYNC :=
    u8_of_lt _ (hK.2.2 _ (by simp [Consts.stored]))
  have hp1 : PeerKnown { s with netsio_sync_num := u8 (s.netsio_sync_num + 1) } := hp
  have hn1 : NetWorks { s with netsio_sync_num := u8 (s.netsio_sync_num + 1) } := hn
  simp only [netsio_send_byte_sync]
  rw [send_to_fujinet_known _ _ _ hp1 hn1, hc]
  rfl

theorem to_size_t_of_nonneg (len : Int) (h0 : 0 ≤ len) (h1 : len < 2 ^ 63) :
    to_size_t len = len.toNat := by
  unfold to_size_t
  have : len % (2 ^ 64 : Int) = len := Int.emod_eq_of_lt h0 (by omega)
  rw [this]

theorem to_size_t_of_neg (len : Int) (h0 : len < 0) (h1 : -(2 ^ 63) ≤ len) :
    512 < to_size_t len := by
  unfold to_size_t
  omega

theorem send_block_known (K : Consts) (hK : K.WF) (block : List Nat) (len : Nat) (s : State)
    (hp : PeerKnown s) (hn : NetWorks s) (h1 : 1 ≤ len) (h512 : len ≤ 512)
    (hb : len ≤ block.length) :
    send_block_to_fujinet K block len s =
      { s with sendto_log := s.sendto_log ++
          [(K.DATA_BLOCK :: (block.take len ++ [0xFF]), .ok (len + 2))] } := by
  have hc : u8 K.DATA_BLOCK = K.DATA_BLOCK := u8_of_lt _ (hK.2.2 _ (by simp [Consts.stored]))
  have hg : ¬ (len = 0 ∨ len > 512) := by omega
  have hl : (K.DATA_BLOCK :: (block.take len ++ [0xFF])).length = len + 2 := by
    simp [List.length_take, Nat.min_eq_left hb]
  have ht : (K.DATA_BLOCK :: (block.take len ++ [0xFF])).take (len + 2)
      = K.DATA_BLOCK :: (block.take len ++ [0xFF]) := List.take_of_length_le (by omega)
  simp only [send_block_to_fujinet, hg, if_false, hc]
  rw [send_to_fujinet_known _ _ _ hp hn, ht, hl]

theorem send_block_rejected (K : Consts) (block : List Nat) (len : Nat) (s : State)
    (h : len = 0 ∨ 512 < len) : send_block_to_fujinet K block len s = s := by
  have hg : len = 0 ∨ len > 512 := h
  simp only [send_block_to_fujinet, hg, if_true]

theorem send_to_fujinet_unknown (pkt : List Nat) (len : Nat) (s : State)
    (h : s.fujinet_known = 0) : send_to_fujinet pkt len s = s := by
  simp only [send_to_fujinet, h, true_or, if_true]

theorem cmd_off_sync_known (K : Consts) (hK : K.WF) (s : State) (hp : PeerKnown s)
    (hn : NetWorks s) :
    netsio_cmd_off_sync K s =
      (0, { s with netsio_sync_num := u8 (s.netsio_sync_num + 1), netsio_sync_wait := 1,
                   sendto_log := s.sendto_log ++
                     [([K.COMMAND_OFF_SYNC, u8 (s.netsio_sync_num + 1)], .ok 2)] }) := by
  have hc : u8 K.COMMAND_OFF_SYNC = K.COMMAND_OFF_SYNC :=
    u8_of_lt _ (hK.2.2 _ (by simp [Consts.stored]))
  have hp1 : PeerKnown { s with netsio_sync_num := u8 (s.netsio_sync_num + 1) } := hp
  have hn1 : NetWorks { s with netsio_sync_num := u8 (s.netsio_sync_num + 1) } := hn
  simp only [netsio_cmd_off_sync]
  rw [send_to_fujinet_known _ _ _ hp1 hn1, hc]
  rfl

theorem cmd_on_known (K : Consts) (hK : K.WF) (s : State) (hp : PeerKnown s) (hn : NetWorks s) :
    netsio_cmd_on K s =
      (0, { s with netsio_cmd_state := 1,
                   sendto_log := s.sendto_log ++ [([K.COMMAND_ON], .ok 1)] }) := by
  have hc : u8 K.COMMAND_ON = K.COMMAND_ON := u8_of_lt _ (hK.2.2 _ (by simp [Consts.stored]))
  have hp1 : PeerKnown { s with netsio_cmd_state := 1 } := hp
  have hn1 : NetWorks { s with netsio_cmd_state := 1 } := hn
  simp only [netsio_cmd_on]
  rw [send_to_fujinet_known _ _ _ hp1 hn1, hc]
  rfl


/-! ### What sending and enqueueing leave alone -/

theorem send_to_fujinet_shape (pkt : List Nat) (len : Nat) (s : State) :
    ∃ log scr, send_to_fujinet pkt len s = { s with sendto_log := log, tx_script := scr } := by
  unfold send_to_fujinet
  split_ifs
  · exact ⟨s.sendto_log, s.tx_script, rfl⟩
  · rcases hscr : s.tx_script with _ | ⟨r, rest⟩
    · simp only [sendto, hscr]
      split_ifs <;> exact ⟨_, _, rfl⟩
    · cases r with
      | ok n =>
        simp only [sendto, hscr]
        split_ifs <;> exact ⟨_, _, rfl⟩
      | fail =>
        simp only [sendto, hscr]
        exact ⟨_, _, rfl⟩
      | eintr =>
        rcases rest with _ | ⟨r2, rest2⟩
        · simp only [sendto, hscr]
          exact ⟨_, _, rfl⟩
        · simp only [sendto, hscr]
          exact ⟨_, _, rfl⟩

@[simp] theorem send_to_fujinet_netsio_enabled (pkt : List Nat) (len : Nat) (s : State) :
    (send_to_fujinet pkt len s).netsio_enabled = s.netsio_enabled := by
  obtain ⟨log, scr, h⟩ := send_to_fujinet_shape pkt len s
  rw [h]

@[simp] theorem send_to_fujinet_netsio_sync_num (pkt : List Nat) (len : Nat) (s : State) :
    (send_to_fujinet pkt len s).netsio_sync_num = s.netsio_sync_num := by
  obtain ⟨log, scr, h⟩ := send_to_fujinet_shape pkt len s
  rw [h]

@[simp] theorem send_to_fujinet_fujinet_known (pkt : List Nat) (len : Nat) (s : State) :
    (send_to_fujinet pkt len s).fujinet_known = s.fujinet_known := by
  obtain ⟨log, scr, h⟩ := send_to_fujinet_shape pkt len s
  rw [h]

@[simp] theorem send_to_fujinet_netsio_sync_wait (pkt : List Nat) (len : Nat) (s : State) :
    (send_to_fujinet pkt len s).netsio_sync_wait = s.netsio_sync_wait := by
  obtain ⟨log, scr, h⟩ := send_to_fujinet_shape pkt len s
  rw [h]

@[simp] theorem send_to_fujinet_netsio_cmd_state (pkt : List Nat) (len : Nat) (s : State) :
    (send_to_fujinet pkt len s).netsio_cmd_state = s.netsio_cmd_state := by
  obtain ⟨log, scr, h⟩ := send_to_fujinet_shape pkt len s
  rw [h]

@[simp] theorem send_to_fujinet_netsio_next_write_size (pkt : List Nat) (len : Nat) (s : State) :
    (send_to_fujinet pkt len s).netsio_next_write_size = s.netsio_next_write_size := by
  obtain ⟨log, scr, h⟩ := send_to_fujinet_shape pkt len s
  rw [h]

@[simp] theorem send_to_fujinet_addr_inet (pkt : List Nat) (len : Nat) (s : State) :
    (send_to_fujinet pkt len s).addr_inet = s.addr_inet := by
  obtain ⟨log, scr, h⟩ := send_to_fujinet_shape pkt len s
  rw [h]

@[simp] theorem send_to_fujinet_pipe (pkt : List Nat) (len : Nat) (s : State) :
    (send_to_fujinet pkt len s).pipe = s.pipe := by
  obtain ⟨log, scr, h⟩ := send_to_fujinet_shape pkt len s
  rw [h]

@[simp] theorem send_to_fujinet_slept (pkt : List Nat) (len : Nat) (s : State) :
    (send_to_fujinet pkt len s).slept = s.slept := by
  obtain ⟨log, scr, h⟩ := send_to_fujinet_shape pkt len s
  rw [h]

@[simp] theorem send_to_fujinet_wr_script (pkt : List Nat) (len : Nat) (s : State) :
    (send_to_fujinet pkt len s).wr_script = s.wr_script := by
  obtain ⟨log, scr, h⟩ := send_to_fujinet_shape pkt len s
  rw [h]

@[simp] theorem send_to_fujinet_rd_script (pkt : List Nat) (len : Nat) (s : State) :
    (send_to_fujinet pkt len s).rd_script = s.rd_script := by
  obtain ⟨log, scr, h⟩ := send_to_fujinet_shape pkt len s
  rw [h]

theorem enqueue_shape (pkt : List Nat) :
    ∀ (fuel : Nat) (off : Int) (len : Nat) (s s1 : State),
      enqueue_to_emulator pkt fuel off len s = .done s1 →
      ∃ p w, s1 = { s with pipe := p, wr_script := w } := by
  intro fuel
  induction fuel with
  | zero => intro off len s s1 h; simp [enqueue_to_emulator] at h
  | succ fuel ih =>
    intro off len s s1 h
    by_cases h1 : len > 0
    · by_cases h2 : off < 0 ∨ (pkt.length : Int) < off + len
      · simp [enqueue_to_emulator, h1, h2] at h
      · simp only [enqueue_to_emulator, h1, h2, if_true, if_false] at h
        split at h <;>
          (obtain ⟨p, w, e⟩ := ih _ _ _ _ h
           exact ⟨p, w, by rw [e]⟩)
    · simp only [enqueue_to_emulator, h1, if_false] at h
      cases h
      exact ⟨s.pipe, s.wr_script, rfl⟩

theorem dispatchFrame_refl (en : Prop) (s : State) : DispatchFrame en s s :=
  ⟨rfl, rfl, rfl, rfl, rfl, rfl, fun _ => rfl, Or.inl rfl⟩

theorem dispatchFrame_send (en : Prop) (pkt : List Nat) (len : Nat) (s : State) :
    DispatchFrame en s (send_to_fujinet pkt len s) := by
  simp [DispatchFrame]

theorem dispatchFrame_enqueue (en : Prop) (pkt : List Nat) (fuel : Nat) (off : Int) (len : Nat)
    (s s1 : State) (h : enqueue_to_emulator pkt fuel off len s = .done s1) :
    DispatchFrame en s s1 := by
  obtain ⟨p, w, e⟩ := enqueue_shape pkt fuel off len s s1 h
  rw [e]
  exact ⟨rfl, rfl, rfl, rfl, rfl, rfl, fun _ => rfl, Or.inl rfl⟩

theorem case_SPEED_CHANGE_frame (en : Prop) (n : Int) (buf : List Nat) (s s1 : State)
    (h : case_SPEED_CHANGE n buf s = .done s1) : DispatchFrame en s s1 := by
  unfold case_SPEED_CHANGE at h
  split_ifs at h <;> cases h
  · exact dispatchFrame_refl en s
  · exact dispatchFrame_send en _ _ s

theorem case_DATA_BYTE_frame (en : Prop) (fuel : Nat) (n : Int) (buf : List Nat) (s s1 : State)
    (h : case_DATA_BYTE fuel n buf s = .done s1) : DispatchFrame en s s1 := by
  unfold case_DATA_BYTE at h
  split_ifs at h
  · cases h; exact dispatchFrame_refl en s
  · exact dispatchFrame_enqueue en _ _ _ _ s s1 h

theorem case_DATA_BLOCK_frame (en : Prop) (fuel : Nat) (n : Int) (buf : List Nat) (s s1 : State)
    (h : case_DATA_BLOCK fuel n buf s = .done s1) : DispatchFrame en s s1 := by
  unfold case_DATA_BLOCK at h
  split_ifs at h
  · cases h; exact dispatchFrame_refl en s
  · exact dispatchFrame_enqueue en _ _ _ _ s s1 h

theorem case_SYNC_RESPONSE_frame (en : Prop) (fuel : Nat) (n : Int) (buf : List Nat)
    (s s1 : State) (h : case_SYNC_RESPONSE fuel n buf s = .done s1) : DispatchFrame en s s1 := by
  unfold case_SYNC_RESPONSE at h
  simp only [] at h
  split_ifs at h
  · cases h; exact dispatchFrame_refl en s
  · cases h; exact ⟨rfl, rfl, rfl, rfl, rfl, rfl, fun _ => rfl, Or.inr rfl⟩
  · cases h; exact ⟨rfl, rfl, rfl, rfl, rfl, rfl, fun _ => rfl, Or.inr rfl⟩
  · split at h
    · rename_i s2 he
      cases h
      obtain ⟨p, w, e⟩ := enqueue_shape _ _ _ _ _ _ he
      rw [e]
      exact ⟨rfl, rfl, rfl, rfl, rfl, rfl, fun _ => rfl, Or.inr rfl⟩
    · rename_i r hne
      exact absurd h (by
        intro h2
        exact hne s1 h2)
  · cases h; exact ⟨rfl, rfl, rfl, rfl, rfl, rfl, fun _ => rfl, Or.inr rfl⟩

theorem dispatch_frame (K : Consts) (fuel : Nat) (n : Int) (buf : List Nat) (s s1 : State)
    (h : dispatch K fuel n buf s = .done s1) :
    DispatchFrame (buf.getD 0 0 ≠ K.DEVICE_CONNECTED ∧ buf.getD 0 0 ≠ K.DEVICE_DISCONNECTED)
      s s1 := by
  simp only [dispatch] at h
  by_cases c0 : buf.getD 0 0 = K.PING_REQUEST
  · rw [if_pos c0] at h
    cases h; exact dispatchFrame_send _ _ _ s
  rw [if_neg c0] at h
  by_cases c1 : buf.getD 0 0 = K.DEVICE_CONNECTED
  · rw [if_pos c1] at h
    cases h; exact ⟨rfl, rfl, rfl, rfl, rfl, rfl, fun hen => absurd c1 hen.1, Or.inl rfl⟩
  rw [if_neg c1] at h
  by_cases c2 : buf.getD 0 0 = K.DEVICE_DISCONNECTED
  · rw [if_pos c2] at h
    cases h; exact ⟨rfl, rfl, rfl, rfl, rfl, rfl, fun hen => absurd c2 hen.2, Or.inl rfl⟩
  rw [if_neg c2] at h
  by_cases c3 : buf.getD 0 0 = K.ALIVE_REQUEST
  · rw [if_pos c3] at h
    cases h; exact dispatchFrame_send _ _ _ s
  rw [if_neg c3] at h
  by_cases c4 : buf.getD 0 0 = K.CREDIT_STATUS
  · rw [if_pos c4] at h
    cases h; exact dispatchFrame_send _ _ _ s
  rw [if_neg c4] at h
  by_cases c5 : buf.getD 0 0 = K.SPEED_CHANGE
  · rw [if_pos c5] at h
    exact case_SPEED_CHANGE_frame _ _ _ _ _ h
  rw [if_neg c5] at h
  by_cases c6 : buf.getD 0 0 = K.SYNC_RESPONSE
  · rw [if_pos c6] at h
    exact case_SYNC_RESPONSE_frame _ _ _ _ _ _ h
  rw [if_neg c6] at h
  by_cases c7 : buf.getD 0 0 = K.PROCEED_ON
  · rw [if_pos c7] at h
    cases h; exact dispatchFrame_refl _ s
  rw [if_neg c7] at h
  by_cases c8 : buf.getD 0 0 = K.PROCEED_OFF
  · rw [if_pos c8] at h
    cases h; exact dispatchFrame_refl _ s
  rw [if_neg c8] at h
  by_cases c9 : buf.getD 0 0 = K.INTERRUPT_ON
  · rw [if_pos c9] at h
    cases h; exact dispatchFrame_refl _ s
  rw [if_neg c9] at h
  by_cases c10 : buf.getD 0 0 = K.INTERRUPT_OFF
  · rw [if_pos c10] at h
    cases h; exact dispatchFrame_refl _ s
  rw [if_neg c10] at h
  by_cases c11 : buf.getD 0 0 = K.DATA_BYTE
  · rw [if_pos c11] at h
    exact case_DATA_BYTE_frame _ _ _ _ _ _ h
  rw [if_neg c11] at h
  by_cases c12 : buf.getD 0 0 = K.DATA_BLOCK
  · rw [if_pos c12] at h
    exact case_DATA_BLOCK_frame _ _ _ _ _ _ h
  rw [if_neg c12] at h
  cases h
  exact dispatchFrame_refl _ s

/-! ### One pass of the receiver loop -/

theorem stored_getD (d : List Nat) (i : Nat) (hi : i < 4096) :
    (d.take 4096).getD i 0 = d.getD i 0 := by
  simp only [List.getD_eq_getElem?_getD, List.getElem?_take, hi, if_true]

theorem stored_length_ge (d : List Nat) (k : Nat) (hk : k ≤ 4096) (h : k ≤ d.length) :
    k ≤ (d.take 4096).length := by
  rw [List.length_take]
  omega

theorem stored_length_lt (d : List Nat) (k : Nat) (hk : k ≤ 4096) :
    (d.take 4096).length < k ↔ d.length < k := by
  rw [List.length_take]
  omega

theorem stored_take (d : List Nat) (k : Nat) (hk : k ≤ 4096) :
    (d.take 4096).take k = d.take k := by
  rw [List.take_take, Nat.min_eq_left hk]

theorem stored_eq_dispatch (K : Consts) (fuel : Nat) (buf : List Nat) (inet : Bool) (s : State)
    (h : 1 ≤ buf.length) :
    receive_stored K fuel buf inet s =
      dispatch K fuel (buf.length : Int) buf { s with addr_inet := inet, fujinet_known := 1 } := by
  have h1 : ¬ ((buf.length : Int) ≤ 0) := by omega
  have h2 : ¬ ((buf.length : Int) < 1) := by omega
  simp only [receive_stored, fujinet_rx_iteration, h1, h2, if_false]

theorem receive_eq_dispatch (K : Consts) (fuel : Nat) (d : List Nat) (inet : Bool) (s : State)
    (h : 1 ≤ d.length) :
    receive K fuel d inet s =
      dispatch K fuel ((d.take 4096).length : Int) (d.take 4096)
        { s with addr_inet := inet, fujinet_known := 1 } :=
  stored_eq_dispatch K fuel (d.take 4096) inet s (stored_length_ge d 1 (by decide) h)

theorem returnsWorking_send (pkt : List Nat) (len : Nat) (s : State) (hw : PipeWorks s) :
    ReturnsWorking s (.done (send_to_fujinet pkt len s)) :=
  ⟨_, rfl, by simpa [PipeWorks] using hw, by simp⟩

theorem case_SPEED_CHANGE_total (n : Int) (buf : List Nat) (s : State) (hw : PipeWorks s) :
    ReturnsWorking s (case_SPEED_CHANGE n buf s) := by
  unfold case_SPEED_CHANGE
  split_ifs
  · exact ⟨_, rfl, hw, le_refl _⟩
  · exact returnsWorking_send _ _ s hw

theorem case_DATA_BYTE_total (fuel : Nat) (n : Int) (buf : List Nat) (s : State)
    (hw : PipeWorks s) (hf : s.wr_script.length + 2 ≤ fuel) :
    ReturnsWorking s (case_DATA_BYTE fuel n buf s) := by
  unfold case_DATA_BYTE
  split_ifs
  · exact ⟨_, rfl, hw, le_refl _⟩
  · obtain ⟨s1, e1, -, e3, e4⟩ := enqueue_one (buf.getD 1 0) fuel s hw hf
    exact ⟨s1, e1, e3, e4⟩

theorem case_DATA_BLOCK_total (fuel : Nat) (buf : List Nat) (s : State)
    (hw : PipeWorks s) (hf : s.wr_script.length + 2 ≤ fuel) :
    ReturnsWorking s (case_DATA_BLOCK fuel (buf.length : Int) buf s) := by
  unfold case_DATA_BLOCK
  split_ifs with h2
  · exact ⟨_, rfl, hw, le_refl _⟩
  · have hn : ((buf.length : Int) - 1).toNat = buf.length - 1 := by omega
    simp only [hn]
    obtain ⟨s1, e1, -, e3, e4⟩ := enqueue_works buf fuel 1 (buf.length - 1) s (by omega) hw
      (by have : min (buf.length - 1) 1 ≤ 1 := Nat.min_le_right _ _
          omega)
    exact ⟨s1, by simpa using e1, e3, e4⟩

theorem case_SYNC_RESPONSE_total (fuel : Nat) (n : Int) (buf : List Nat) (s : State)
    (hw : PipeWorks s) (hf : s.wr_script.length + 2 ≤ fuel) :
    ReturnsWorking s (case_SYNC_RESPONSE fuel n buf s) := by
  unfold case_SYNC_RESPONSE
  simp only []
  split_ifs
  · exact ⟨_, rfl, hw, le_refl _⟩
  · exact ⟨_, rfl, hw, le_refl _⟩
  · exact ⟨_, rfl, hw, le_refl _⟩
  · obtain ⟨s1, e1, -, e3, e4⟩ := enqueue_one (buf.getD 3 0) fuel
      { s with netsio_next_write_size :=
          ((u8 (buf.getD 4 0 ||| ((buf.getD 5 0 % 65536) <<< 8)) : Nat) : Int) } hw hf
    rw [e1]
    exact ⟨_, rfl, e3, e4⟩
  · exact ⟨_, rfl, hw, le_refl _⟩

theorem dispatch_total (K : Consts) (fuel : Nat) (buf : List Nat) (s : State)
    (hw : PipeWorks s) (hf : s.wr_script.length + 2 ≤ fuel) :
    ReturnsWorking s (dispatch K fuel (buf.length : Int) buf s) := by
  simp only [dispatch]
  by_cases c0 : buf.getD 0 0 = K.PING_REQUEST
  · rw [if_pos c0]
    exact returnsWorking_send _ _ s hw
  rw [if_neg c0]
  by_cases c1 : buf.getD 0 0 = K.DEVICE_CONNECTED
  · rw [if_pos c1]
    exact ⟨_, rfl, hw, le_refl _⟩
  rw [if_neg c1]
  by_cases c2 : buf.getD 0 0 = K.DEVICE_DISCONNECTED
  · rw [if_pos c2]
    exact ⟨_, rfl, hw, le_refl _⟩
  rw [if_neg c2]
  by_cases c3 : buf.getD 0 0 = K.ALIVE_REQUEST
  · rw [if_pos c3]
    exact returnsWorking_send _ _ s hw
  rw [if_neg c3]
  by_cases c4 : buf.getD 0 0 = K.CREDIT_STATUS
  · rw [if_pos c4]
    exact returnsWorking_send _ _ s hw
  rw [if_neg c4]
  by_cases c5 : buf.getD 0 0 = K.SPEED_CHANGE
  · rw [if_pos c5]
    exact case_SPEED_CHANGE_total _ _ s hw
  rw [if_neg c5]
  by_cases c6 : buf.getD 0 0 = K.SYNC_RESPONSE
  · rw [if_pos c6]
    exact case_SYNC_RESPONSE_total _ _ _ s hw hf
  rw [if_neg c6]
  by_cases c7 : buf.getD 0 0 = K.PROCEED_ON
  · rw [if_pos c7]
    exact ⟨_, rfl, hw, le_refl _⟩
  rw [if_neg c7]
  by_cases c8 : buf.getD 0 0 = K.PROCEED_OFF
  · rw [if_pos c8]
    exact ⟨_, rfl, hw, le_refl _⟩
  rw [if_neg c8]
  by_cases c9 : buf.getD 0 0 = K.INTERRUPT_ON
  · rw [if_pos c9]
    exact ⟨_, rfl, hw, le_refl _⟩
  rw [if_neg c9]
  by_cases c10 : buf.getD 0 0 = K.INTERRUPT_OFF
  · rw [if_pos c10]
    exact ⟨_, rfl, hw, le_refl _⟩
  rw [if_neg c10]
  by_cases c11 : buf.getD 0 0 = K.DATA_BYTE
  · rw [if_pos c11]
    exact case_DATA_BYTE_total _ _ _ s hw hf
  rw [if_neg c11]
  by_cases c12 : buf.getD 0 0 = K.DATA_BLOCK
  · rw [if_pos c12]
    exact case_DATA_BLOCK_total _ _ s hw hf
  rw [if_neg c12]
  exact ⟨_, rfl, hw, le_refl _⟩

theorem receive_total (K : Consts) (fuel : Nat) (buf : List Nat) (inet : Bool) (s : State)
    (hw : PipeWorks s) (hf : s.wr_script.length + 2 ≤ fuel) :
    ReturnsWorking s (receive K fuel buf inet s) := by
  unfold receive receive_stored fujinet_rx_iteration
  simp only []
  split_ifs
  · exact ⟨_, rfl, hw, le_refl _⟩
  · exact ⟨_, rfl, hw, le_refl _⟩
  · exact dispatch_total K fuel (buf.take 4096)
      { s with addr_inet := inet, fujinet_known := 1 } hw hf

theorem rx_iteration_frame (K : Consts) (fuel : Nat) (n : Int) (buf : List Nat) (inet : Bool)
    (s s1 : State) (h : fujinet_rx_iteration K fuel n buf inet s = .done s1) :
    (n ≤ 0 → s1 = { s with addr_inet := inet }) ∧
      (1 ≤ n → DispatchFrame
        (buf.getD 0 0 ≠ K.DEVICE_CONNECTED ∧ buf.getD 0 0 ≠ K.DEVICE_DISCONNECTED)
        { s with addr_inet := inet, fujinet_known := 1 } s1) := by
  unfold fujinet_rx_iteration at h
  simp only [] at h
  split_ifs at h with h0 h1
  · cases h
    exact ⟨fun _ => rfl, fun hn => absurd hn (by omega)⟩
  · exact absurd h1 (by omega)
  · exact ⟨fun hn => absurd hn h0, fun _ => dispatch_frame K fuel n buf _ s1 h⟩

theorem receive_all_keeps_enabled (K : Consts) (fuel : Nat) (inet : Bool) :
    ∀ (ds : List (List Nat)) (s : State),
      (∀ x ∈ ds, x ≠ [] →
        x.getD 0 0 ≠ K.DEVICE_CONNECTED ∧ x.getD 0 0 ≠ K.DEVICE_DISCONNECTED) →
      PipeWorks s → s.wr_script.length + 2 ≤ fuel →
      ∃ s1, receive_all K fuel inet ds s = .done s1 ∧ s1.netsio_enabled = s.netsio_enabled := by
  intro ds
  induction ds with
  | nil => intro s _ _ _; exact ⟨s, rfl, rfl⟩
  | cons d ds ih =>
    intro s hds hw hf
    obtain ⟨s1, e1, e2, e3⟩ := receive_total K fuel d inet s hw hf
    obtain ⟨s2, f1, f2⟩ := ih s1 (fun x hx => hds x (by simp [hx])) e2 (by omega)
    have hfr := rx_iteration_frame K fuel ((d.take 4096).length : Int) (d.take 4096) inet s s1 e1
    have hen : s1.netsio_enabled = s.netsio_enabled := by
      by_cases hd : d = []
      · subst hd
        rw [hfr.1 (by simp)]
      · have hpos : 1 ≤ ((d.take 4096).length : Int) := by
          have := stored_length_ge d 1 (by decide) (List.length_pos.mpr hd)
          omega
        have h0 := stored_getD d 0 (by decide)
        exact (hfr.2 hpos).2.2.2.2.2.2.1 (by rw [h0]; exact hds d (by simp) hd)
    refine ⟨s2, ?_, by rw [f2, hen]⟩
    simp only [receive_all, e1]
    exact f1


/-! ### The wait for a synchronous reply -/

theorem wait_loop_stuck (rx : Nat → State → State) (hrx : QuietReceiver rx) :
    ∀ (d fuel t : Nat) (s : State), t + d = 8 → d + 1 ≤ fuel → s.netsio_sync_wait ≠ 0 →
      ∃ s1, wait_loop rx fuel (t : Int) s = some s1 ∧
        s1.slept = s.slept ++ List.replicate (d + 1) 5 ∧ s1.netsio_sync_wait = 0 := by
  intro d
  induction d with
  | zero =>
    intro fuel t s ht hf hs
    obtain ⟨f, rfl⟩ : ∃ f, fuel = f + 1 := ⟨fuel - 1, by omega⟩
    have h8 : ((t : Int) > 7) := by omega
    refine ⟨_, by simp only [wait_loop, hs, ne_eq, not_false_eq_true, if_true, h8]; rfl, ?_, rfl⟩
    simp [(hrx _ _).2, millisleep]
  | succ d ih =>
    intro fuel t s ht hf hs
    obtain ⟨f, rfl⟩ : ∃ f, fuel = f + 1 := ⟨fuel - 1, by omega⟩
    have h8 : ¬ ((t : Int) > 7) := by omega
    have hs2 : (rx (t : Int).toNat (millisleep 5 s)).netsio_sync_wait ≠ 0 :=
      (hrx _ _).1 (by simpa [millisleep] using hs)
    obtain ⟨s1, h1, h2, h3⟩ := ih f (t + 1) _ (by omega) (by omega) hs2
    refine ⟨s1, ?_, ?_, h3⟩
    · simp only [wait_loop, hs, ne_eq, not_false_eq_true, if_true, h8, if_false]
      simpa using h1
    · rw [h2, (hrx _ _).2]
      simp [millisleep, List.replicate_succ]

/-- C1 (as the code behaves): when netsio_wait_for_sync starts with
netsio_sync_wait set and the receiver never clears it, the call returns for
every fuel of at least 9, after exactly 9 calls of millisleep(5) (45 ms in
total), with netsio_sync_wait forced to 0. -/
theorem C1_wait_for_sync_nine_sleeps (rx : Nat → State → State) (hrx : QuietReceiver rx)
    (fuel : Nat) (hfuel : 9 ≤ fuel) (s : State) (hs : s.netsio_sync_wait ≠ 0) :
    ∃ s1, netsio_wait_for_sync rx fuel s = some s1 ∧
      s1.slept = s.slept ++ List.replicate 9 5 ∧
      (List.replicate 9 5).sum = 45 ∧
      s1.netsio_sync_wait = 0 := by
  obtain ⟨s1, h1, h2, h3⟩ := wait_loop_stuck rx hrx 8 fuel 0 s (by omega) (by omega) hs
  exact ⟨s1, by simpa [netsio_wait_for_sync] using h1, h2, by decide, h3⟩

/-- Witness of C1_wait_for_sync_nine_sleeps: an idle receiver, fuel 9, from the
state right after a synchronous send. -/
theorem C1_wait_for_sync_nine_sleeps_witness :
    ∃ s1, netsio_wait_for_sync (fun _ t => t) 9 pending_start = some s1 ∧
      s1.slept = pending_start.slept ++ List.replicate 9 5 ∧
      (List.replicate 9 5).sum = 45 ∧
      s1.netsio_sync_wait = 0 :=
  C1_wait_for_sync_nine_sleeps (fun _ t => t) (fun _ _ => ⟨id, rfl⟩) 9 (by decide)
    pending_start (by decide)

/-- C1 fails as stated: with an idle receiver the wait sleeps 9 times, not at
most 8, that is 45 ms and not 40 ms, before it clears netsio_sync_wait. -/
theorem C1_counterexample_nine_not_eight :
    (netsio_wait_for_sync (fun _ t => t) 20 pending_start).map
        (fun t => (t.slept, t.slept.sum, decide (t.slept.length ≤ 8), t.netsio_sync_wait))
      = some ([5, 5, 5, 5, 5, 5, 5, 5, 5], 45, false, 0) := by
  decide

/-! ### SYNC_RESPONSE -/

/-- C2 (the code at the failing input): a matching ACK that advertises the
write size 0x0100 (bytes 0x00, 0x01) leaves netsio_next_write_size at 0, not
256, because the local write_size is a uint8_t; the low byte alone is kept.  The
write size 0x0010 (bytes 0x10, 0x00) of the specification gives 16. -/
theorem C2_write_size_high_byte_lost :
    receive netsio_h 2 [0x81, 0, 1, 0x99, 0x00, 0x01] true State.init
        = .done { State.init with
            fujinet_known := 1, addr_inet := true, pipe := [0x99], netsio_next_write_size := 0 }
      ∧ (0x00 + 256 * 0x01 : Int) = 256
      ∧ receive netsio_h 2 [0x81, 0, 1, 0x99, 0x10, 0x00] true State.init
        = .done { State.init with
            fujinet_known := 1, addr_inet := true, pipe := [0x99], netsio_next_write_size := 16 } := by
  decide

/-- C3: after netsio_send_byte_sync(b) to a known peer (which sends the frame
[DATA_BYTE_SYNC, b, seq] with seq the incremented counter and sets
netsio_sync_wait), one receiver pass on a SYNC_RESPONSE of at least 6 bytes with
sequence byte seq, ack_type 1 and ack byte a returns, clears netsio_sync_wait
and leaves the FIFO holding its former bytes followed by the one byte a. -/
theorem C3_sync_ack_releases_gate_and_enqueues_ack_byte (K : Consts) (hK : K.WF) (b a : Nat)
    (s : State) (hp : PeerKnown s) (hn : NetWorks s) (hw : PipeWorks s)
    (fuel : Nat) (hfuel : s.wr_script.length + 2 ≤ fuel)
    (buf : List Nat) (inet : Bool) (hlen : 6 ≤ buf.length)
    (hcmd : buf.getD 0 0 = K.SYNC_RESPONSE)
    (hseq : buf.getD 1 0 = u8 (s.netsio_sync_num + 1))
    (hack : buf.getD 2 0 = 1) (ha : buf.getD 3 0 = a) :
    (netsio_send_byte_sync K b s).2.sendto_log =
        s.sendto_log ++ [([K.DATA_BYTE_SYNC, b, u8 (s.netsio_sync_num + 1)], .ok 3)] ∧
      (netsio_send_byte_sync K b s).2.netsio_sync_wait = 1 ∧
      ∃ s1, receive K fuel buf inet (netsio_send_byte_sync K b s).2 = .done s1 ∧
        s1.netsio_sync_wait = 0 ∧ s1.pipe = s.pipe ++ [a] := by
  rw [← stored_getD buf 0 (by decide)] at hcmd
  rw [← stored_getD buf 1 (by decide)] at hseq
  rw [← stored_getD buf 2 (by decide)] at hack
  rw [← stored_getD buf 3 (by decide)] at ha
  replace hlen := stored_length_ge buf 6 (by decide) hlen
  unfold receive
  generalize List.take 4096 buf = buf at *
  have hsend := congrArg Prod.snd (send_byte_sync_known K hK b s hp hn)
  simp only [] at hsend
  rw [hsend]
  refine ⟨rfl, rfl, ?_⟩
  rw [stored_eq_dispatch K fuel buf inet _ (by omega), dispatch_SYNC_RESPONSE K hK _ _ _ _ hcmd]
  have h6 : ¬ ((buf.length : Int) < 6) := by omega
  simp only [case_SYNC_RESPONSE, h6, if_false, hseq, ne_eq, not_true_eq_false, hack,
    one_ne_zero, if_true, ha]
  obtain ⟨s1, h1, h2, -, -⟩ := enqueue_one a fuel
    { s with netsio_sync_num := u8 (s.netsio_sync_num + 1), netsio_sync_wait := 1,
             sendto_log := s.sendto_log ++
               [([K.DATA_BYTE_SYNC, b, u8 (s.netsio_sync_num + 1)], .ok 3)],
             addr_inet := inet, fujinet_known := 1,
             netsio_next_write_size :=
               ((u8 (buf.getD 4 0 ||| ((buf.getD 5 0 % 65536) <<< 8)) : Nat) : Int) }
    hw hfuel
  rw [h1]
  exact ⟨_, rfl, rfl, by rw [h2]⟩

/-- Witness of C3: b = 0x42, a = 0x99 and write size 0x0010, from a known peer
with the counter at 0 (so the frame and the reply carry sequence 1). -/
theorem C3_sync_ack_witness :
    (netsio_send_byte_sync netsio_h 0x42 (known_peer 0)).2.sendto_log =
        (known_peer 0).sendto_log ++ [([netsio_h.DATA_BYTE_SYNC, 0x42, u8 (0 + 1)], .ok 3)] ∧
      (netsio_send_byte_sync netsio_h 0x42 (known_peer 0)).2.netsio_sync_wait = 1 ∧
      ∃ s1, receive netsio_h 2 [0x81, 1, 1, 0x99, 0x10, 0x00] true
            (netsio_send_byte_sync netsio_h 0x42 (known_peer 0)).2 = .done s1 ∧
        s1.netsio_sync_wait = 0 ∧ s1.pipe = (known_peer 0).pipe ++ [0x99] :=
  C3_sync_ack_releases_gate_and_enqueues_ack_byte netsio_h (by decide) 0x42 0x99 (known_peer 0)
    (by decide) (by decide) (by decide) 2 (by decide) [0x81, 1, 1, 0x99, 0x10, 0x00] true
    (by decide) (by decide) (by decide) (by decide) (by decide)

/-- C4: one receiver pass on a SYNC_RESPONSE of at least 6 bytes whose sequence
byte differs from netsio_sync_num returns (for any fuel) and changes the globals
only by clearing netsio_sync_wait (and by the bookkeeping of any receive: peer
known, source address): nothing is enqueued, sendto is not called, and
netsio_next_write_size keeps its value, whatever the other bytes are. -/
theorem C4_sync_mismatch_only_releases_gate (K : Consts) (hK : K.WF) (fuel : Nat)
    (buf : List Nat) (inet : Bool) (s : State) (hlen : 6 ≤ buf.length)
    (hcmd : buf.getD 0 0 = K.SYNC_RESPONSE) (hseq : buf.getD 1 0 ≠ s.netsio_sync_num) :
    ∃ s1, receive K fuel buf inet s = .done s1 ∧
      s1 = { s with addr_inet := inet, fujinet_known := 1, netsio_sync_wait := 0 } ∧
      s1.netsio_sync_wait = 0 ∧ s1.pipe = s.pipe ∧ s1.sendto_log = s.sendto_log ∧
      s1.netsio_next_write_size = s.netsio_next_write_size := by
  rw [← stored_getD buf 0 (by decide)] at hcmd
  rw [← stored_getD buf 1 (by decide)] at hseq
  replace hlen := stored_length_ge buf 6 (by decide) hlen
  unfold receive
  generalize List.take 4096 buf = buf at *
  rw [stored_eq_dispatch K fuel buf inet _ (by omega), dispatch_SYNC_RESPONSE K hK _ _ _ _ hcmd]
  have h6 : ¬ ((buf.length : Int) < 6) := by omega
  simp only [case_SYNC_RESPONSE, h6, if_false, ne_eq, hseq, not_false_eq_true, if_true]
  exact ⟨_, rfl, rfl, rfl, rfl, rfl, rfl⟩

/-- Witness of C4: the counter is at 1, the reply carries sequence 7 and
otherwise looks like an ACK with a write size. -/
theorem C4_sync_mismatch_witness :
    ∃ s1, receive netsio_h 0 [0x81, 7, 1, 0x99, 0x10, 0x00] true (known_peer 1) = .done s1 ∧
      s1 = { known_peer 1 with addr_inet := true, fujinet_known := 1, netsio_sync_wait := 0 } ∧
      s1.netsio_sync_wait = 0 ∧ s1.pipe = (known_peer 1).pipe ∧
      s1.sendto_log = (known_peer 1).sendto_log ∧
      s1.netsio_next_write_size = (known_peer 1).netsio_next_write_size :=
  C4_sync_mismatch_only_releases_gate netsio_h (by decide) 0 [0x81, 7, 1, 0x99, 0x10, 0x00] true
    (known_peer 1) (by decide) (by decide) (by decide)

/-- C5: one receiver pass on a SYNC_RESPONSE of at least 6 bytes whose sequence
byte equals netsio_sync_num and whose ack_type is not 1 (0, or 2 and above)
returns (for any fuel) and changes the globals only by clearing
netsio_sync_wait (and by the bookkeeping of any receive): nothing is enqueued
and netsio_next_write_size keeps its value. -/
theorem C5_sync_match_without_ack_only_releases_gate (K : Consts) (hK : K.WF) (fuel : Nat)
    (buf : List Nat) (inet : Bool) (s : State) (hlen : 6 ≤ buf.length)
    (hcmd : buf.getD 0 0 = K.SYNC_RESPONSE) (hseq : buf.getD 1 0 = s.netsio_sync_num)
    (hack : buf.getD 2 0 ≠ 1) :
    ∃ s1, receive K fuel buf inet s = .done s1 ∧
      s1 = { s with addr_inet := inet, fujinet_known := 1, netsio_sync_wait := 0 } ∧
      s1.netsio_sync_wait = 0 ∧ s1.pipe = s.pipe ∧
      s1.netsio_next_write_size = s.netsio_next_write_size := by
  rw [← stored_getD buf 0 (by decide)] at hcmd
  rw [← stored_getD buf 1 (by decide)] at hseq
  rw [← stored_getD buf 2 (by decide)] at hack
  replace hlen := stored_length_ge buf 6 (by decide) hlen
  unfold receive
  generalize List.take 4096 buf = buf at *
  rw [stored_eq_dispatch K fuel buf inet _ (by omega), dispatch_SYNC_RESPONSE K hK _ _ _ _ hcmd]
  have h6 : ¬ ((buf.length : Int) < 6) := by omega
  simp only [case_SYNC_RESPONSE, h6, if_false, ne_eq, hseq, not_true_eq_false, hack]
  split_ifs <;> exact ⟨_, rfl, rfl, rfl, rfl, rfl⟩

/-- Witness of C5: a NAK (ack_type 0) for the outstanding sequence 1. -/
theorem C5_sync_match_without_ack_witness :
    ∃ s1, receive netsio_h 0 [0x81, 1, 0, 0x99, 0x10, 0x00] true (known_peer 1) = .done s1 ∧
      s1 = { known_peer 1 with addr_inet := true, fujinet_known := 1, netsio_sync_wait := 0 } ∧
      s1.netsio_sync_wait = 0 ∧ s1.pipe = (known_peer 1).pipe ∧
      s1.netsio_next_write_size = (known_peer 1).netsio_next_write_size :=
  C5_sync_match_without_ack_only_releases_gate netsio_h (by decide) 0
    [0x81, 1, 0, 0x99, 0x10, 0x00] true (known_peer 1) (by decide) (by decide) (by decide)
    (by decide)

/-! ### Short frames -/

/-- C6: one receiver pass on a datagram that carries a command byte but is
shorter than its command needs (SPEED_CHANGE under 5 bytes, SYNC_RESPONSE under
6, DATA_BYTE or DATA_BLOCK under 2) returns (for any fuel) having done only the
bookkeeping of any receive (peer known, source address): sendto is not called,
the FIFO is untouched, and netsio_enabled, netsio_sync_wait, netsio_sync_num,
netsio_next_write_size and netsio_cmd_state keep their values; so a short
SYNC_RESPONSE leaves a set netsio_sync_wait set. -/
theorem C6_short_frame_is_dropped (K : Consts) (hK : K.WF) (fuel : Nat) (buf : List Nat)
    (inet : Bool) (s : State) (h1 : 1 ≤ buf.length)
    (hshort : (buf.getD 0 0 = K.SPEED_CHANGE ∧ buf.length < 5) ∨
      (buf.getD 0 0 = K.SYNC_RESPONSE ∧ buf.length < 6) ∨
      (buf.getD 0 0 = K.DATA_BYTE ∧ buf.length < 2) ∨
      (buf.getD 0 0 = K.DATA_BLOCK ∧ buf.length < 2)) :
    ∃ s1, receive K fuel buf inet s = .done s1 ∧
      s1 = { s with addr_inet := inet, fujinet_known := 1 } ∧
      s1.sendto_log = s.sendto_log ∧ s1.pipe = s.pipe ∧
      s1.netsio_enabled = s.netsio_enabled ∧
      s1.netsio_sync_wait = s.netsio_sync_wait ∧ s1.netsio_sync_num = s.netsio_sync_num ∧
      s1.netsio_next_write_size = s.netsio_next_write_size ∧
      s1.netsio_cmd_state = s.netsio_cmd_state := by
  rw [← stored_getD buf 0 (by decide), ← stored_length_lt buf 5 (by decide),
    ← stored_length_lt buf 6 (by decide), ← stored_length_lt buf 2 (by decide)] at hshort
  replace h1 := stored_length_ge buf 1 (by decide) h1
  unfold receive
  generalize List.take 4096 buf = buf at *
  rw [stored_eq_dispatch K fuel buf inet _ h1]
  rcases hshort with ⟨hc, hl⟩ | ⟨hc, hl⟩ | ⟨hc, hl⟩ | ⟨hc, hl⟩
  · have h : (buf.length : Int) < 5 := by omega
    rw [dispatch_SPEED_CHANGE K hK _ _ _ _ hc]
    simp only [case_SPEED_CHANGE, h, if_true]
    exact ⟨_, rfl, rfl, rfl, rfl, rfl, rfl, rfl, rfl, rfl⟩
  · have h : (buf.length : Int) < 6 := by omega
    rw [dispatch_SYNC_RESPONSE K hK _ _ _ _ hc]
    simp only [case_SYNC_RESPONSE, h, if_true]
    exact ⟨_, rfl, rfl, rfl, rfl, rfl, rfl, rfl, rfl, rfl⟩
  · have h : (buf.length : Int) < 2 := by omega
    rw [dispatch_DATA_BYTE K hK _ _ _ _ hc]
    simp only [case_DATA_BYTE, h, if_true]
    exact ⟨_, rfl, rfl, rfl, rfl, rfl, rfl, rfl, rfl, rfl⟩
  · have h : (buf.length : Int) < 2 := by omega
    rw [dispatch_DATA_BLOCK K hK _ _ _ _ hc]
    simp only [case_DATA_BLOCK, h, if_true]
    exact ⟨_, rfl, rfl, rfl, rfl, rfl, rfl, rfl, rfl, rfl⟩

/-- Witness of C6: a 5-byte SYNC_RESPONSE for the outstanding sequence arrives
while netsio_sync_wait is set. -/
theorem C6_short_frame_witness :
    ∃ s1, receive netsio_h 0 [0x81, 0, 1, 0x99, 0x10] true pending_start = .done s1 ∧
      s1 = { pending_start with addr_inet := true, fujinet_known := 1 } ∧
      s1.sendto_log = pending_start.sendto_log ∧ s1.pipe = pending_start.pipe ∧
      s1.netsio_enabled = pending_start.netsio_enabled ∧
      s1.netsio_sync_wait = pending_start.netsio_sync_wait ∧
      s1.netsio_sync_num = pending_start.netsio_sync_num ∧
      s1.netsio_next_write_size = pending_start.netsio_next_write_size ∧
      s1.netsio_cmd_state = pending_start.netsio_cmd_state :=
  C6_short_frame_is_dropped netsio_h (by decide) 0 [0x81, 0, 1, 0x99, 0x10] true pending_start
    (by decide) (by decide)

/-! ### DATA_BYTE and DATA_BLOCK -/

theorem receive_data (K : Consts) (hK : K.WF) (fuel : Nat) (buf : List Nat) (inet : Bool)
    (s : State) (hlen : 2 ≤ buf.length)
    (hcmd : buf.getD 0 0 = K.DATA_BYTE ∨ buf.getD 0 0 = K.DATA_BLOCK)
    (hw : PipeWorks s) (hf : s.wr_script.length + 2 ≤ fuel) :
    ∃ s1, receive K fuel buf inet s = .done s1 ∧
      s1 = { s with addr_inet := inet, fujinet_known := 1, pipe := s.pipe ++ payload K buf,
                    wr_script := s1.wr_script } ∧
      PipeWorks s1 ∧ s1.wr_script.length ≤ s.wr_script.length := by
  have hp : payload K buf =
      if (buf.take 4096).getD 0 0 = K.DATA_BYTE then [(buf.take 4096).getD 1 0]
      else (buf.take 4096).drop 1 := by
    unfold payload
    rw [stored_getD buf 0 (by decide), stored_getD buf 1 (by decide)]
  rw [hp]
  rw [← stored_getD buf 0 (by decide)] at hcmd
  replace hlen := stored_length_ge buf 2 (by decide) hlen
  unfold receive
  generalize List.take 4096 buf = buf at *
  rw [stored_eq_dispatch K fuel buf inet _ (by omega)]
  have h2 : ¬ ((buf.length : Int) < 2) := by omega
  rcases hcmd with hc | hc
  · rw [dispatch_DATA_BYTE K hK _ _ _ _ hc]
    simp only [case_DATA_BYTE, h2, if_false]
    obtain ⟨s1, e1, e2, e3, e4⟩ := enqueue_one (buf.getD 1 0) fuel
      { s with addr_inet := inet, fujinet_known := 1 } hw hf
    have hpay : (if buf.getD 0 0 = K.DATA_BYTE then [buf.getD 1 0] else buf.drop 1)
        = [buf.getD 1 0] := by rw [if_pos hc]
    exact ⟨s1, e1, by rw [hpay]; exact e2, e3, e4⟩
  · have hne : K.DATA_BLOCK ≠ K.DATA_BYTE :=
      labels_distinct K hK 12 11 (by decide) (by decide) (by decide)
    rw [dispatch_DATA_BLOCK K hK _ _ _ _ hc]
    simp only [case_DATA_BLOCK, h2, if_false]
    have hn : ((buf.length : Int) - 1).toNat = buf.length - 1 := by omega
    rw [hn]
    obtain ⟨s1, e1, e2, e3, e4⟩ := enqueue_works buf fuel 1 (buf.length - 1)
      { s with addr_inet := inet, fujinet_known := 1 } (by omega) hw
      (by have : min (buf.length - 1) 1 ≤ 1 := Nat.min_le_right _ _
          show s.wr_script.length + min (buf.length - 1) 1 + 1 ≤ fuel
          omega)
    have ht : List.take (buf.length - 1) (List.drop 1 buf) = List.drop 1 buf :=
      List.take_of_length_le (by simp)
    have hpay : (if buf.getD 0 0 = K.DATA_BYTE then [buf.getD 1 0] else buf.drop 1)
        = buf.drop 1 := by rw [hc, if_neg hne]
    rw [ht] at e2
    exact ⟨s1, by simpa using e1, by rw [hpay]; exact e2, e3, e4⟩

theorem receive_all_data (K : Consts) (hK : K.WF) (fuel : Nat) (inet : Bool) :
    ∀ (ds : List (List Nat)) (s : State),
      (∀ d ∈ ds, 2 ≤ d.length ∧ (d.getD 0 0 = K.DATA_BYTE ∨ d.getD 0 0 = K.DATA_BLOCK)) →
      PipeWorks s → s.wr_script.length + 2 ≤ fuel →
      ∃ s1, receive_all K fuel inet ds s = .done s1 ∧ s1.pipe = s.pipe ++ payloads K ds ∧
        s1.rd_script = s.rd_script := by
  intro ds
  induction ds with
  | nil => intro s _ _ _; exact ⟨s, rfl, by simp [payloads], rfl⟩
  | cons d ds ih =>
    intro s hds hw hf
    obtain ⟨s1, e1, e2, e3, e4⟩ := receive_data K hK fuel d inet s (hds d (by simp)).1
      (hds d (by simp)).2 hw hf
    obtain ⟨s2, f1, f2, f3⟩ := ih s1 (fun x hx => hds x (by simp [hx])) e3 (by omega)
    refine ⟨s2, ?_, ?_, ?_⟩
    · simp only [receive_all, e1]
      exact f1
    · rw [f2, e2]; simp [payloads, List.append_assoc]
    · rw [f3, e2]

theorem recv_byte_works :
    ∀ (fuel b x : Nat) (xs : List Nat) (s : State), s.pipe = x :: xs → ReadsWork s →
      s.rd_script.length + 1 ≤ fuel →
      netsio_recv_byte fuel b s = .done (0, x, { s with pipe := xs, rd_script := [] }) := by
  intro fuel
  induction fuel with
  | zero => intro b x xs s _ _ hf; omega
  | succ fuel ih =>
    intro b x xs s hp hr hf
    rcases hscr : s.rd_script with _ | ⟨r, rest⟩
    · simp only [netsio_recv_byte, hscr, hp]
    · have hr2 : r = ReadRes.eintr ∧ rest.all (fun r => decide (r = ReadRes.eintr)) = true := by
        simpa [ReadsWork, hscr] using hr
      obtain ⟨rfl, hrest⟩ := hr2
      have := ih b x xs { s with rd_script := rest } hp hrest
        (by simp only [hscr, List.length_cons] at hf ⊢; omega)
      simp only [netsio_recv_byte, hscr]
      rw [this]

theorem recv_bytes_works (fuel : Nat) :
    ∀ (l : List Nat) (rest : List Nat) (s : State), s.pipe = l ++ rest → ReadsWork s →
      s.rd_script.length + 1 ≤ fuel →
      ∃ s1, recv_bytes fuel l.length s = .done (l.map (fun x => ((0 : Int), x)), s1) ∧
        s1.pipe = rest := by
  intro l
  induction l with
  | nil => intro rest s hp _ _; exact ⟨s, rfl, by simpa using hp⟩
  | cons x xs ih =>
    intro rest s hp hr hf
    have h1 := recv_byte_works fuel 0 x (xs ++ rest) s (by simpa using hp) hr hf
    obtain ⟨s1, e1, e2⟩ := ih rest { s with pipe := xs ++ rest, rd_script := [] } rfl
      (by simp [ReadsWork]) (by simp only [List.length_nil]; omega)
    refine ⟨s1, ?_, e2⟩
    simp only [List.length_cons, recv_bytes, h1, e1, List.map_cons]

/-- C7 (as the code behaves): for every sequence of datagrams each of which is
a DATA_BYTE or a DATA_BLOCK of at least 2 bytes, with a working FIFO the receiver
passes over them all return, and the FIFO then holds its former bytes followed
by buf[1] of each DATA_BYTE and, of each DATA_BLOCK, the bytes after the command
byte that the 4096-byte receive buffer holds (all of them for a datagram of at
most 4096 bytes, the first 4095 otherwise), in order of receipt; as many
netsio_recv_byte calls as there are bytes then all return 0 and deliver exactly
these bytes in this order, leaving the FIFO empty. -/
theorem C7_data_frames_are_read_back_in_order (K : Consts) (hK : K.WF)
    (ds : List (List Nat)) (inet : Bool) (s : State)
    (hds : ∀ d ∈ ds, 2 ≤ d.length ∧ (d.getD 0 0 = K.DATA_BYTE ∨ d.getD 0 0 = K.DATA_BLOCK))
    (hw : PipeWorks s) (hr : ReadsWork s)
    (fuel : Nat) (hfuel : s.wr_script.length + 2 ≤ fuel)
    (rfuel : Nat) (hrfuel : s.rd_script.length + 1 ≤ rfuel) :
    ∃ s1, receive_all K fuel inet ds s = .done s1 ∧
      s1.pipe = s.pipe ++ payloads K ds ∧
      ∃ s2, recv_bytes rfuel (s.pipe ++ payloads K ds).length s1
          = .done ((s.pipe ++ payloads K ds).map (fun x => ((0 : Int), x)), s2) ∧
        s2.pipe = [] := by
  obtain ⟨s1, e1, e2, e3⟩ := receive_all_data K hK fuel inet ds s hds hw hfuel
  obtain ⟨s2, f1, f2⟩ := recv_bytes_works rfuel (s.pipe ++ payloads K ds) [] s1 (by simpa using e2)
    (by simpa [ReadsWork, e3] using hr) (by rw [e3]; exact hrfuel)
  exact ⟨s1, e1, e2, s2, f1, f2⟩

/-- Witness of C7: DATA_BYTE(0x01), DATA_BLOCK([0x02, 0x03]), DATA_BYTE(0x04)
into an empty FIFO are read back as 0x01, 0x02, 0x03, 0x04. -/
theorem C7_data_frames_witness :
    ∃ s1, receive_all netsio_h 2 true [[0x01, 0x01], [0x02, 0x02, 0x03], [0x01, 0x04]] State.init
          = .done s1 ∧
      s1.pipe = State.init.pipe ++
        payloads netsio_h [[0x01, 0x01], [0x02, 0x02, 0x03], [0x01, 0x04]] ∧
      ∃ s2, recv_bytes 1 (State.init.pipe ++
              payloads netsio_h [[0x01, 0x01], [0x02, 0x02, 0x03], [0x01, 0x04]]).length s1
          = .done ((State.init.pipe ++
              payloads netsio_h [[0x01, 0x01], [0x02, 0x02, 0x03], [0x01, 0x04]]).map
                (fun x => ((0 : Int), x)), s2) ∧
        s2.pipe = [] :=
  C7_data_frames_are_read_back_in_order netsio_h (by decide)
    [[0x01, 0x01], [0x02, 0x02, 0x03], [0x01, 0x04]] true State.init (by decide) (by decide)
    (by decide) 2 (by decide) 1 (by decide)

/-- C7 fails as stated: a DATA_BLOCK datagram of 4097 bytes carries 4096 bytes
after its command byte, but the receiver pass enqueues 4095 of them, because
recvfrom stores no more than the 4096 bytes of buf. -/
theorem C7_counterexample_oversize_block_is_cut :
    ∃ s1, receive netsio_h 2 oversize_block true State.init = .done s1 ∧
      s1.pipe.length = 4095 ∧ (oversize_block.drop 1).length = 4096 := by
  have hl : oversize_block.length = 4097 := by
    unfold oversize_block
    rw [List.length_cons, List.length_replicate]
  have hc : ¬ (oversize_block.getD 0 0 = netsio_h.DATA_BYTE) := by decide
  obtain ⟨s1, e1, e2, -, -⟩ := receive_data netsio_h (by decide) 2 oversize_block true
    State.init (by omega) (Or.inr rfl) (by decide) (by decide)
  refine ⟨s1, e1, ?_, ?_⟩
  · rw [e2]
    show (State.init.pipe ++ payload netsio_h oversize_block).length = 4095
    unfold payload
    rw [if_neg hc, List.length_append, List.length_drop, List.length_take, hl]
    rfl
  · rw [List.length_drop, hl]

/-! ### Outbound frames -/

/-- C8: with a known peer and a working network, netsio_send_block(block, len)
returns 0 for every ssize_t len; it calls sendto exactly once, with the frame of
len + 2 bytes (DATA_BLOCK, the first len bytes of block, 0xFF), which is sent in
full, when 1 <= len <= 512, and does not call sendto at all otherwise (len = 0,
len > 512, or len negative, which the conversion to size_t makes huge). -/
theorem C8_send_block_length_gate (K : Consts) (hK : K.WF) (block : List Nat) (len : Int)
    (s : State) (hp : PeerKnown s) (hn : NetWorks s)
    (hrange : -(2 ^ 63) ≤ len ∧ len < 2 ^ 63)
    (hbuf : 1 ≤ len → len ≤ 512 → len ≤ block.length) :
    netsio_send_block K block len s =
        (0, if 1 ≤ len ∧ len ≤ 512 then
              { s with sendto_log := s.sendto_log ++
                  [(K.DATA_BLOCK :: (block.take len.toNat ++ [0xFF]), .ok (len.toNat + 2))] }
            else s) ∧
      (1 ≤ len ∧ len ≤ 512 →
        ((K.DATA_BLOCK :: (block.take len.toNat ++ [0xFF])).length : Int) = len + 2) := by
  by_cases h : 1 ≤ len ∧ len ≤ 512
  · have hb := hbuf h.1 h.2
    have hsz : to_size_t len = len.toNat := to_size_t_of_nonneg len (by omega) (by omega)
    refine ⟨?_, fun _ => ?_⟩
    · simp only [netsio_send_block, hsz, h, and_self, if_true]
      rw [send_block_known K hK block len.toNat s hp hn (by omega) (by omega) (by omega)]
    · simp only [List.length_cons, List.length_append, List.length_take, List.length_singleton,
        List.length_nil]
      omega
  · refine ⟨?_, fun h2 => absurd h2 h⟩
    have hrej : to_size_t len = 0 ∨ 512 < to_size_t len := by
      by_cases hneg : len < 0
      · exact Or.inr (to_size_t_of_neg len hneg hrange.1)
      · rw [to_size_t_of_nonneg len (by omega) hrange.2]
        omega
    simp only [netsio_send_block, h, if_false]
    rw [send_block_rejected K block _ s hrej]

/-- Witness of C8: a 600-byte buffer and len = 512, 0, 513 and -1. -/
theorem C8_send_block_witness :
    (netsio_send_block netsio_h (List.replicate 600 0xAA) 512 (known_peer 0) =
        (0, if (1 : Int) ≤ 512 ∧ (512 : Int) ≤ 512 then
              { known_peer 0 with sendto_log := (known_peer 0).sendto_log ++
                  [(netsio_h.DATA_BLOCK :: ((List.replicate 600 0xAA).take (512 : Int).toNat
                      ++ [0xFF]), .ok ((512 : Int).toNat + 2))] }
            else known_peer 0) ∧
      ((1 : Int) ≤ 512 ∧ (512 : Int) ≤ 512 →
        ((netsio_h.DATA_BLOCK :: ((List.replicate 600 0xAA).take (512 : Int).toNat
            ++ [0xFF])).length : Int) = 512 + 2)) ∧
    (netsio_send_block netsio_h (List.replicate 600 0xAA) 0 (known_peer 0)).2 = known_peer 0 ∧
    (netsio_send_block netsio_h (List.replicate 600 0xAA) 513 (known_peer 0)).2 = known_peer 0 ∧
    (netsio_send_block netsio_h (List.replicate 600 0xAA) (-1) (known_peer 0)).2 = known_peer 0 :=
  ⟨C8_send_block_length_gate netsio_h (by decide) (List.replicate 600 0xAA) 512 (known_peer 0)
      (by decide) (by decide) (by decide)
      (fun _ _ => by simp only [List.length_replicate]; omega),
    by
      rw [(C8_send_block_length_gate netsio_h (by decide)
        (List.replicate 600 0xAA) 0 (known_peer 0) (by decide) (by decide) (by decide)
        (fun _ _ => by simp only [List.length_replicate]; omega)).1]
      simp only [show ¬ ((1 : Int) ≤ 0 ∧ (0 : Int) ≤ 512) by decide, if_false],
    by
      rw [(C8_send_block_length_gate netsio_h (by decide)
        (List.replicate 600 0xAA) 513 (known_peer 0) (by decide) (by decide) (by decide)
        (fun _ _ => by simp only [List.length_replicate]; omega)).1]
      simp only [show ¬ ((1 : Int) ≤ 513 ∧ (513 : Int) ≤ 512) by decide, if_false],
    by
      rw [(C8_send_block_length_gate netsio_h (by decide)
        (List.replicate 600 0xAA) (-1) (known_peer 0) (by decide) (by decide) (by decide)
        (fun _ _ => by simp only [List.length_replicate]; omega)).1]
      simp only [show ¬ ((1 : Int) ≤ (-1) ∧ ((-1) : Int) ≤ 512) by decide, if_false]⟩

/-- C9: for every byte sequence of length 1 to 512, netsio_send_block to a known
peer hands sendto exactly the frame [DATA_BLOCK] ++ bytes ++ [0xFF], sent in
full; dropping the first and the last byte of that frame gives bytes back. -/
theorem C9_send_block_frame_roundtrip (K : Consts) (hK : K.WF) (bytes : List Nat) (s : State)
    (hp : PeerKnown s) (hn : NetWorks s) (h1 : 1 ≤ bytes.length) (h512 : bytes.length ≤ 512) :
    ∃ frame, (netsio_send_block K bytes (bytes.length : Int) s).2.sendto_log =
        s.sendto_log ++ [(frame, .ok (bytes.length + 2))] ∧
      frame = [K.DATA_BLOCK] ++ bytes ++ [0xFF] ∧
      (frame.drop 1).dropLast = bytes := by
  have hsz : to_size_t (bytes.length : Int) = bytes.length := by
    rw [to_size_t_of_nonneg _ (by omega) (by omega)]; simp
  refine ⟨[K.DATA_BLOCK] ++ bytes ++ [0xFF], ?_, rfl, by simp⟩
  simp only [netsio_send_block, hsz]
  rw [send_block_known K hK bytes bytes.length s hp hn h1 h512 (le_refl _)]
  simp

/-- Witness of C9: the three bytes 0x70, 0xE8, 0x59. -/
theorem C9_send_block_frame_witness :
    ∃ frame, (netsio_send_block netsio_h [0x70, 0xE8, 0x59]
          (([0x70, 0xE8, 0x59] : List Nat).length : Int) (known_peer 0)).2.sendto_log =
        (known_peer 0).sendto_log ++ [(frame, .ok (([0x70, 0xE8, 0x59] : List Nat).length + 2))] ∧
      frame = [netsio_h.DATA_BLOCK] ++ [0x70, 0xE8, 0x59] ++ [0xFF] ∧
      (frame.drop 1).dropLast = [0x70, 0xE8, 0x59] :=
  C9_send_block_frame_roundtrip netsio_h (by decide) [0x70, 0xE8, 0x59] (known_peer 0)
    (by decide) (by decide) (by decide) (by decide)

/-- C10: for every byte b and every counter value, netsio_send_byte_sync(b) to a
known peer returns 0, calls sendto exactly once with the 3-byte frame
[DATA_BYTE_SYNC, b, (netsio_sync_num + 1) mod 256], which is sent in full,
stores (netsio_sync_num + 1) mod 256 in netsio_sync_num (so 255 becomes 0), sets
netsio_sync_wait to 1 and changes nothing else. -/
theorem C10_send_byte_sync_frame_and_counter (K : Consts) (hK : K.WF) (b : Nat) (s : State)
    (hp : PeerKnown s) (hn : NetWorks s) :
    netsio_send_byte_sync K b s =
        (0, { s with netsio_sync_num := (s.netsio_sync_num + 1) % 256, netsio_sync_wait := 1,
                     sendto_log := s.sendto_log ++
                       [([K.DATA_BYTE_SYNC, b, (s.netsio_sync_num + 1) % 256], .ok 3)] }) ∧
      (s.netsio_sync_num = 255 → (netsio_send_byte_sync K b s).2.netsio_sync_num = 0) := by
  have h := send_byte_sync_known K hK b s hp hn
  refine ⟨h, fun h255 => ?_⟩
  rw [h]
  simp [u8, h255]

/-- Witness of C10: b = 0x42 with the counter at 255, which wraps to 0. -/
theorem C10_send_byte_sync_witness :
    netsio_send_byte_sync netsio_h 0x42 (known_peer 255) =
        (0, { known_peer 255 with
                netsio_sync_num := ((known_peer 255).netsio_sync_num + 1) % 256,
                netsio_sync_wait := 1,
                sendto_log := (known_peer 255).sendto_log ++
                  [([netsio_h.DATA_BYTE_SYNC, 0x42,
                      ((known_peer 255).netsio_sync_num + 1) % 256], .ok 3)] }) ∧
      ((known_peer 255).netsio_sync_num = 255 →
        (netsio_send_byte_sync netsio_h 0x42 (known_peer 255)).2.netsio_sync_num = 0) :=
  C10_send_byte_sync_frame_and_counter netsio_h (by decide) 0x42 (known_peer 255)
    (by decide) (by decide)

/-! ### The command line -/

/-- C11: with a known peer and a working network, netsio_toggle_cmd(v) for
v = 0 calls sendto exactly once with the 2-byte frame
[COMMAND_OFF_SYNC, (netsio_sync_num + 1) mod 256], stores that sequence number
in netsio_sync_num and sets netsio_sync_wait to 1; for v other than 0 it calls
sendto exactly once with the 1-byte frame [COMMAND_ON] and leaves
netsio_sync_num and netsio_sync_wait as they were (it sets netsio_cmd_state). -/
theorem C11_toggle_cmd_frames (K : Consts) (hK : K.WF) (v : Int) (s : State)
    (hp : PeerKnown s) (hn : NetWorks s) :
    netsio_toggle_cmd K v s =
      if v = 0 then
        { s with netsio_sync_num := (s.netsio_sync_num + 1) % 256, netsio_sync_wait := 1,
                 sendto_log := s.sendto_log ++
                   [([K.COMMAND_OFF_SYNC, (s.netsio_sync_num + 1) % 256], .ok 2)] }
      else
        { s with netsio_cmd_state := 1,
                 sendto_log := s.sendto_log ++ [([K.COMMAND_ON], .ok 1)] } := by
  unfold netsio_toggle_cmd
  rw [cmd_off_sync_known K hK s hp hn, cmd_on_known K hK s hp hn]
  rfl

/-- Witness of C11: v = 0 with the counter at 255, and v = 1. -/
theorem C11_toggle_cmd_witness :
    (netsio_toggle_cmd netsio_h 0 (known_peer 255)).sendto_log = [([0x18, 0], .ok 2)] ∧
      (netsio_toggle_cmd netsio_h 0 (known_peer 255)).netsio_sync_num = 0 ∧
      (netsio_toggle_cmd netsio_h 0 (known_peer 255)).netsio_sync_wait = 1 ∧
      (netsio_toggle_cmd netsio_h 1 (known_peer 255)).sendto_log = [([0x11], .ok 1)] ∧
      (netsio_toggle_cmd netsio_h 1 (known_peer 255)).netsio_sync_num = 255 ∧
      (netsio_toggle_cmd netsio_h 1 (known_peer 255)).netsio_sync_wait = 0 := by
  rw [C11_toggle_cmd_frames netsio_h (by decide) 0 (known_peer 255) (by decide) (by decide),
    C11_toggle_cmd_frames netsio_h (by decide) 1 (known_peer 255) (by decide) (by decide)]
  decide

/-- C12 (the code at the failing input): after netsio_toggle_cmd(1) followed by
netsio_toggle_cmd(0) the variable netsio_cmd_state is still 1, not 0; neither
netsio_cmd_off_sync nor netsio_cmd_off ever writes it. -/
theorem C12_cmd_state_not_cleared_by_off :
    (netsio_toggle_cmd netsio_h 1 (known_peer 0)).netsio_cmd_state = 1 ∧
      (netsio_toggle_cmd netsio_h 0 (netsio_toggle_cmd netsio_h 1 (known_peer 0))).netsio_cmd_state
        = 1 ∧
      (netsio_cmd_off netsio_h (netsio_toggle_cmd netsio_h 1 (known_peer 0))).2.netsio_cmd_state
        = 1 := by
  decide

/-! ### Sending while the peer is unknown, and the retry of sendto -/

/-- C13: while fujinet_known is 0, each of netsio_send_byte,
netsio_send_byte_sync, netsio_send_block, netsio_cmd_on, netsio_cmd_off_sync,
netsio_cold_reset and netsio_warm_reset returns 0 and leaves the log of sendto
calls and the log of sleeps as they were (the functions are total: no loop and
no blocking call is reached); what they do change is given in full. -/
theorem C13_unknown_peer_sends_nothing (K : Consts) (b : Nat) (block : List Nat) (len : Int)
    (s : State) (h : s.fujinet_known = 0) :
    netsio_send_byte K b s = (0, s) ∧
      netsio_send_byte_sync K b s =
        (0, { s with netsio_sync_num := (s.netsio_sync_num + 1) % 256, netsio_sync_wait := 1 }) ∧
      netsio_send_block K block len s = (0, s) ∧
      netsio_cmd_on K s = (0, { s with netsio_cmd_state := 1 }) ∧
      netsio_cmd_off_sync K s =
        (0, { s with netsio_sync_num := (s.netsio_sync_num + 1) % 256, netsio_sync_wait := 1 }) ∧
      netsio_cold_reset s = (0, s) ∧
      netsio_warm_reset s = (0, s) ∧
      (∀ r ∈ [netsio_send_byte K b s, netsio_send_byte_sync K b s, netsio_send_block K block len s,
          netsio_cmd_on K s, netsio_cmd_off_sync K s, netsio_cold_reset s, netsio_warm_reset s],
        r.1 = 0 ∧ r.2.sendto_log = s.sendto_log ∧ r.2.slept = s.slept) := by
  have h1 : netsio_send_byte K b s = (0, s) := by
    simp only [netsio_send_byte, send_to_fujinet_unknown _ _ s h]
  have h2 : netsio_send_byte_sync K b s =
      (0, { s with netsio_sync_num := (s.netsio_sync_num + 1) % 256, netsio_sync_wait := 1 }) := by
    simp only [netsio_send_byte_sync]
    rw [send_to_fujinet_unknown _ _ _ (by exact h)]
    rfl
  have h3 : netsio_send_block K block len s = (0, s) := by
    simp only [netsio_send_block, send_block_to_fujinet]
    split_ifs
    · rfl
    · rw [send_to_fujinet_unknown _ _ s h]
  have h4 : netsio_cmd_on K s = (0, { s with netsio_cmd_state := 1 }) := by
    simp only [netsio_cmd_on]
    rw [send_to_fujinet_unknown _ _ _ (by exact h)]
  have h5 : netsio_cmd_off_sync K s =
      (0, { s with netsio_sync_num := (s.netsio_sync_num + 1) % 256, netsio_sync_wait := 1 }) := by
    simp only [netsio_cmd_off_sync]
    rw [send_to_fujinet_unknown _ _ _ (by exact h)]
    rfl
  have h6 : netsio_cold_reset s = (0, s) := by
    simp only [netsio_cold_reset, send_to_fujinet_unknown _ _ s h]
  have h7 : netsio_warm_reset s = (0, s) := by
    simp only [netsio_warm_reset, send_to_fujinet_unknown _ _ s h]
  refine ⟨h1, h2, h3, h4, h5, h6, h7, ?_⟩
  rw [h1, h2, h3, h4, h5, h6, h7]
  intro r hr
  simp only [List.mem_cons, List.mem_singleton, List.not_mem_nil, or_false] at hr
  rcases hr with rfl | rfl | rfl | rfl | rfl | rfl | rfl <;> exact ⟨rfl, rfl, rfl⟩

/-- Witness of C13: the state at program start, a 3-byte block. -/
theorem C13_unknown_peer_witness :
    netsio_send_byte netsio_h 0x42 State.init = (0, State.init) ∧
      (netsio_send_byte_sync netsio_h 0x42 State.init).2.sendto_log = [] ∧
      (netsio_send_block netsio_h [1, 2, 3] 3 State.init).2.sendto_log = [] ∧
      (netsio_cmd_on netsio_h State.init).2.sendto_log = [] ∧
      (netsio_cmd_off_sync netsio_h State.init).2.sendto_log = [] ∧
      netsio_cold_reset State.init = (0, State.init) ∧
      netsio_warm_reset State.init = (0, State.init) := by
  have h := C13_unknown_peer_sends_nothing netsio_h 0x42 [1, 2, 3] 3 State.init (by decide)
  obtain ⟨h1, h2, h3, h4, h5, h6, h7, -⟩ := h
  rw [h1, h2, h3, h4, h5, h6, h7]
  exact ⟨rfl, rfl, rfl, rfl, rfl, rfl, rfl⟩

/-- C20: with a known IPv4 peer, send_to_fujinet calls sendto once when the
first call does not fail with EINTR (whether it sends in full, in part, or fails
with another errno), and exactly twice when the first call fails with EINTR,
whatever the second call returns; every call is handed the same len bytes. -/
theorem C20_sendto_retried_once_on_eintr (pkt : List Nat) (len : Nat) (s : State)
    (hp : PeerKnown s) :
    ((sendto (pkt.take len) s).1 ≠ .eintr →
        (send_to_fujinet pkt len s).sendto_log =
          s.sendto_log ++ [(pkt.take len, (sendto (pkt.take len) s).1)]) ∧
      ((sendto (pkt.take len) s).1 = .eintr →
        (send_to_fujinet pkt len s).sendto_log =
          s.sendto_log ++ [(pkt.take len, .eintr),
            (pkt.take len, (sendto (pkt.take len) (sendto (pkt.take len) s).2).1)]) ∧
      (send_to_fujinet pkt len s).sendto_log.length =
        s.sendto_log.length + (if (sendto (pkt.take len) s).1 = .eintr then 2 else 1) := by
  have h : ¬ (s.fujinet_known = 0 ∨ s.addr_inet = false) := by
    rcases hp with ⟨h1, h2⟩
    simp [h1, h2]
  rcases hscr : s.tx_script with _ | ⟨r, rest⟩
  · simp [send_to_fujinet, h, sendto, hscr]
  · cases r with
    | ok n => simp [send_to_fujinet, h, sendto, hscr]
    | fail => simp [send_to_fujinet, h, sendto, hscr]
    | eintr =>
      rcases rest with _ | ⟨r2, rest2⟩ <;> simp [send_to_fujinet, h, sendto, hscr]

/-- Witness of C20: the first sendto is interrupted and the second one fails
too (again with EINTR); there is no third call. -/
theorem C20_sendto_retry_witness :
    (send_to_fujinet [0xC3] 1 { known_peer 0 with tx_script := [.eintr, .eintr, .ok 1] }).sendto_log
        = [([0xC3], .eintr), ([0xC3], .eintr)] ∧
      (send_to_fujinet [0xC3] 1 { known_peer 0 with tx_script := [.fail, .ok 1] }).sendto_log
        = [([0xC3], .fail)] := by
  have h1 := (C20_sendto_retried_once_on_eintr [0xC3] 1
    { known_peer 0 with tx_script := [.eintr, .eintr, .ok 1] } (by decide)).2.1 (by decide)
  have h2 := (C20_sendto_retried_once_on_eintr [0xC3] 1
    { known_peer 0 with tx_script := [.fail, .ok 1] } (by decide)).1 (by decide)
  rw [h1, h2]
  decide


/-! ### Requests that are answered at once -/

theorem reply_after_receive (pkt : List Nat) (len : Nat) (s : State) (hn : NetWorks s) :
    send_to_fujinet pkt len { s with addr_inet := true, fujinet_known := 1 } =
      { s with addr_inet := true, fujinet_known := 1,
               sendto_log := s.sendto_log ++ [(pkt.take len, .ok (pkt.take len).length)] } := by
  have hp1 : PeerKnown { s with addr_inet := true, fujinet_known := 1 } :=
    ⟨show (1 : Int) ≠ 0 by decide, rfl⟩
  have hn1 : NetWorks { s with addr_inet := true, fujinet_known := 1 } := hn
  rw [send_to_fujinet_known _ _ _ hp1 hn1]

/-- C14: one receiver pass on a datagram of at least 1 byte from an IPv4
source, with a working network, calls sendto exactly once, with
[PING_RESPONSE] for a PING_REQUEST, with [ALIVE_RESPONSE] for an ALIVE_REQUEST
and with [CREDIT_UPDATE, 3] for a CREDIT_STATUS (also when the datagram is the
command byte alone); apart from that call and the bookkeeping of any receive
(peer known, source address) the state is unchanged: FIFO, netsio_enabled,
netsio_sync_wait, netsio_sync_num and netsio_next_write_size keep their values. -/
theorem C14_ping_alive_credit_replies (K : Consts) (hK : K.WF) (fuel : Nat) (buf : List Nat)
    (s : State) (h1 : 1 ≤ buf.length) (hn : NetWorks s) :
    (buf.getD 0 0 = K.PING_REQUEST →
        receive K fuel buf true s = .done { s with
          addr_inet := true, fujinet_known := 1,
          sendto_log := s.sendto_log ++ [([K.PING_RESPONSE], .ok 1)] }) ∧
      (buf.getD 0 0 = K.ALIVE_REQUEST →
        receive K fuel buf true s = .done { s with
          addr_inet := true, fujinet_known := 1,
          sendto_log := s.sendto_log ++ [([K.ALIVE_RESPONSE], .ok 1)] }) ∧
      (buf.getD 0 0 = K.CREDIT_STATUS →
        receive K fuel buf true s = .done { s with
          addr_inet := true, fujinet_known := 1,
          sendto_log := s.sendto_log ++ [([K.CREDIT_UPDATE, 3], .ok 2)] }) := by
  have hs := hK.2.2
  have c1 : u8 K.PING_RESPONSE = K.PING_RESPONSE := u8_of_lt _ (hs _ (by simp [Consts.stored]))
  have c2 : u8 K.ALIVE_RESPONSE = K.ALIVE_RESPONSE := u8_of_lt _ (hs _ (by simp [Consts.stored]))
  have c3 : u8 K.CREDIT_UPDATE = K.CREDIT_UPDATE := u8_of_lt _ (hs _ (by simp [Consts.stored]))
  rw [← stored_getD buf 0 (by decide)]
  replace h1 := stored_length_ge buf 1 (by decide) h1
  unfold receive
  generalize List.take 4096 buf = buf at *
  rw [stored_eq_dispatch K fuel buf true s h1]
  refine ⟨fun h => ?_, fun h => ?_, fun h => ?_⟩
  · rw [dispatch_PING_REQUEST K hK _ _ _ _ h, reply_after_receive _ _ s hn, c1]; rfl
  · rw [dispatch_ALIVE_REQUEST K hK _ _ _ _ h, reply_after_receive _ _ s hn, c2]; rfl
  · rw [dispatch_CREDIT_STATUS K hK _ _ _ _ h, reply_after_receive _ _ s hn, c3]; rfl

/-- Witness of C14: a CREDIT_STATUS that is the command byte alone, a
PING_REQUEST and an ALIVE_REQUEST, each at program start. -/
theorem C14_replies_witness :
    receive netsio_h 0 [0xC6] true State.init = .done { State.init with
        addr_inet := true, fujinet_known := 1, sendto_log := [([0xC7, 3], .ok 2)] } ∧
      receive netsio_h 0 [0xC2] true State.init = .done { State.init with
        addr_inet := true, fujinet_known := 1, sendto_log := [([0xC3], .ok 1)] } ∧
      receive netsio_h 0 [0xC4] true State.init = .done { State.init with
        addr_inet := true, fujinet_known := 1, sendto_log := [([0xC5], .ok 1)] } :=
  ⟨(C14_ping_alive_credit_replies netsio_h (by decide) 0 [0xC6] State.init (by decide)
      (by decide)).2.2 (by decide),
    (C14_ping_alive_credit_replies netsio_h (by decide) 0 [0xC2] State.init (by decide)
      (by decide)).1 (by decide),
    (C14_ping_alive_credit_replies netsio_h (by decide) 0 [0xC4] State.init (by decide)
      (by decide)).2.1 (by decide)⟩

/-- C15: one receiver pass on a SPEED_CHANGE datagram of at least 5 bytes from
an IPv4 source, with a working network, calls sendto exactly once, with the
first 5 bytes of the datagram as they came (later bytes are not sent), and
changes nothing else but the bookkeeping of any receive. -/
theorem C15_speed_change_echo (K : Consts) (hK : K.WF) (fuel : Nat) (buf : List Nat)
    (s : State) (h5 : 5 ≤ buf.length) (hn : NetWorks s) (hcmd : buf.getD 0 0 = K.SPEED_CHANGE) :
    receive K fuel buf true s = .done { s with
        addr_inet := true, fujinet_known := 1,
        sendto_log := s.sendto_log ++ [(buf.take 5, .ok 5)] } ∧
      (buf.take 5).length = 5 := by
  rw [← stored_take buf 5 (by decide)]
  rw [← stored_getD buf 0 (by decide)] at hcmd
  replace h5 := stored_length_ge buf 5 (by decide) h5
  unfold receive
  generalize List.take 4096 buf = buf at *
  have hl : (buf.take 5).length = 5 := by simp [List.length_take, Nat.min_eq_left h5]
  have hn5 : ¬ ((buf.length : Int) < 5) := by omega
  rw [stored_eq_dispatch K fuel buf true s (by omega), dispatch_SPEED_CHANGE K hK _ _ _ _ hcmd]
  simp only [case_SPEED_CHANGE, hn5, if_false]
  rw [reply_after_receive _ _ s hn, hl]
  exact ⟨rfl, rfl⟩

/-- Witness of C15: baud 0x0001C200 followed by two bytes that are not echoed. -/
theorem C15_speed_change_witness :
    receive netsio_h 0 [0x80, 0x00, 0xC2, 0x01, 0x00, 0xEE, 0xEF] true State.init
        = .done { State.init with
            addr_inet := true, fujinet_known := 1,
            sendto_log := State.init.sendto_log ++
              [(([0x80, 0x00, 0xC2, 0x01, 0x00, 0xEE, 0xEF] : List Nat).take 5, .ok 5)] } ∧
      (([0x80, 0x00, 0xC2, 0x01, 0x00, 0xEE, 0xEF] : List Nat).take 5).length = 5 :=
  C15_speed_change_echo netsio_h (by decide) 0 [0x80, 0x00, 0xC2, 0x01, 0x00, 0xEE, 0xEF]
    State.init (by decide) (by decide) (by decide)

/-! ### Commands without effect -/

/-- C17: one receiver pass on a datagram of at least 1 byte whose command byte
is PROCEED_ON, PROCEED_OFF, INTERRUPT_ON or INTERRUPT_OFF, or is none of the
case labels of the switch, returns (for any fuel) having done only the
bookkeeping of any receive (peer known, source address): sendto is not called,
the FIFO is untouched, and netsio_enabled, netsio_sync_wait, netsio_sync_num,
netsio_next_write_size and netsio_cmd_state keep their values. -/
theorem C17_stub_and_unknown_commands_change_nothing (K : Consts) (hK : K.WF) (fuel : Nat)
    (buf : List Nat) (inet : Bool) (s : State) (h1 : 1 ≤ buf.length)
    (hcmd : buf.getD 0 0 = K.PROCEED_ON ∨ buf.getD 0 0 = K.PROCEED_OFF ∨
      buf.getD 0 0 = K.INTERRUPT_ON ∨ buf.getD 0 0 = K.INTERRUPT_OFF ∨
      buf.getD 0 0 ∉ K.labels) :
    ∃ s1, receive K fuel buf inet s = .done s1 ∧
      s1 = { s with addr_inet := inet, fujinet_known := 1 } ∧
      s1.sendto_log = s.sendto_log ∧ s1.pipe = s.pipe ∧
      s1.netsio_enabled = s.netsio_enabled ∧
      s1.netsio_sync_wait = s.netsio_sync_wait ∧ s1.netsio_sync_num = s.netsio_sync_num ∧
      s1.netsio_next_write_size = s.netsio_next_write_size ∧
      s1.netsio_cmd_state = s.netsio_cmd_state := by
  have key : receive K fuel buf inet s = .done { s with addr_inet := inet, fujinet_known := 1 } := by
    rw [← stored_getD buf 0 (by decide)] at hcmd
    rw [receive_eq_dispatch K fuel buf inet s h1]
    rcases hcmd with h | h | h | h | h
    · exact dispatch_PROCEED_ON K hK _ _ _ _ h
    · exact dispatch_PROCEED_OFF K hK _ _ _ _ h
    · exact dispatch_INTERRUPT_ON K hK _ _ _ _ h
    · exact dispatch_INTERRUPT_OFF K hK _ _ _ _ h
    · exact dispatch_default K _ _ _ _ h
  exact ⟨_, key, rfl, rfl, rfl, rfl, rfl, rfl, rfl, rfl⟩

/-- Witness of C17: the byte 0x11 (COMMAND_ON, which the receiver has no case
for) arrives while a synchronous send is pending. -/
theorem C17_unknown_command_witness :
    ∃ s1, receive netsio_h 0 [0x11, 0x22] true pending_start = .done s1 ∧
      s1 = { pending_start with addr_inet := true, fujinet_known := 1 } ∧
      s1.sendto_log = pending_start.sendto_log ∧ s1.pipe = pending_start.pipe ∧
      s1.netsio_enabled = pending_start.netsio_enabled ∧
      s1.netsio_sync_wait = pending_start.netsio_sync_wait ∧
      s1.netsio_sync_num = pending_start.netsio_sync_num ∧
      s1.netsio_next_write_size = pending_start.netsio_next_write_size ∧
      s1.netsio_cmd_state = pending_start.netsio_cmd_state :=
  C17_stub_and_unknown_commands_change_nothing netsio_h (by decide) 0 [0x11, 0x22] true
    pending_start (by decide) (by decide)


/-! ### Device notifications -/

/-- C16: one receiver pass on a datagram of at least 1 byte whose command byte
is DEVICE_CONNECTED or DEVICE_DISCONNECTED returns (for any fuel, whatever the
trailing bytes and the former value) with netsio_enabled set to 1 or to 0
respectively, and changes nothing else but the bookkeeping of any receive: no
sendto call, FIFO, netsio_sync_wait, netsio_sync_num and
netsio_next_write_size as before.  When any datagrams that are not such
notifications follow, with a working FIFO all passes return and netsio_enabled
still is the value of that last notification. -/
theorem C16_device_flag_follows_last_notification (K : Consts) (hK : K.WF) (fuel : Nat)
    (d : List Nat) (later : List (List Nat)) (inet : Bool) (s : State) (h1 : 1 ≤ d.length)
    (hcmd : d.getD 0 0 = K.DEVICE_CONNECTED ∨ d.getD 0 0 = K.DEVICE_DISCONNECTED)
    (hlater : ∀ x ∈ later, x ≠ [] →
      x.getD 0 0 ≠ K.DEVICE_CONNECTED ∧ x.getD 0 0 ≠ K.DEVICE_DISCONNECTED)
    (hw : PipeWorks s) (hf : s.wr_script.length + 2 ≤ fuel) :
    (∀ fuel0, receive K fuel0 d inet s = .done { s with
        addr_inet := inet, fujinet_known := 1,
        netsio_enabled := if d.getD 0 0 = K.DEVICE_CONNECTED then 1 else 0 }) ∧
      ∃ s2, receive_all K fuel inet (d :: later) s = .done s2 ∧
        s2.netsio_enabled = if d.getD 0 0 = K.DEVICE_CONNECTED then 1 else 0 := by
  have hne : K.DEVICE_DISCONNECTED ≠ K.DEVICE_CONNECTED :=
    labels_distinct K hK 2 1 (by decide) (by decide) (by decide)
  have one : ∀ fuel0, receive K fuel0 d inet s = .done { s with
      addr_inet := inet, fujinet_known := 1,
      netsio_enabled := if d.getD 0 0 = K.DEVICE_CONNECTED then 1 else 0 } := by
    intro fuel0
    have h0 := stored_getD d 0 (by decide)
    rw [receive_eq_dispatch K fuel0 d inet s h1]
    rcases hcmd with h | h
    · rw [dispatch_DEVICE_CONNECTED K hK _ _ _ _ (h0.trans h), if_pos h]
    · rw [dispatch_DEVICE_DISCONNECTED K hK _ _ _ _ (h0.trans h), h, if_neg hne]
  refine ⟨one, ?_⟩
  obtain ⟨s2, e1, e2⟩ := receive_all_keeps_enabled K fuel inet later
    { s with addr_inet := inet, fujinet_known := 1,
             netsio_enabled := if d.getD 0 0 = K.DEVICE_CONNECTED then 1 else 0 }
    hlater hw hf
  refine ⟨s2, ?_, e2⟩
  simp only [receive_all, one fuel]
  exact e1

/-- Witness of C16: DEVICE_DISCONNECTED with a trailing byte arrives while
netsio_enabled is 1, followed by a ping, a data byte and a short sync reply. -/
theorem C16_device_flag_witness :
    (∀ fuel0, receive netsio_h fuel0 [0xC0, 0x55] true { State.init with netsio_enabled := 1 }
        = .done { ({ State.init with netsio_enabled := 1 } : State) with
            addr_inet := true, fujinet_known := 1,
            netsio_enabled := if ([0xC0, 0x55] : List Nat).getD 0 0 = netsio_h.DEVICE_CONNECTED
              then 1 else 0 }) ∧
      ∃ s2, receive_all netsio_h 2 true ([0xC0, 0x55] :: [[0xC2], [0x01, 0x07], [0x81, 0]])
            { State.init with netsio_enabled := 1 } = .done s2 ∧
        s2.netsio_enabled =
          if ([0xC0, 0x55] : List Nat).getD 0 0 = netsio_h.DEVICE_CONNECTED then 1 else 0 :=
  C16_device_flag_follows_last_notification netsio_h (by decide) 2 [0xC0, 0x55]
    [[0xC2], [0x01, 0x07], [0x81, 0]] true { State.init with netsio_enabled := 1 }
    (by decide) (by decide) (by decide) (by decide) (by decide)


/-! ### The peer-known flag -/

theorem recv_byte_shape :
    ∀ (fuel b : Nat) (s : State) (r : Int) (b1 : Nat) (s1 : State),
      netsio_recv_byte fuel b s = .done (r, b1, s1) →
      ∃ p rs, s1 = { s with pipe := p, rd_script := rs } := by
  intro fuel
  induction fuel with
  | zero => intro b s r b1 s1 h; simp [netsio_recv_byte] at h
  | succ fuel ih =>
    intro b s r b1 s1 h
    unfold netsio_recv_byte at h
    split at h
    · obtain ⟨p, rs, e⟩ := ih _ _ _ _ _ h
      exact ⟨p, rs, by rw [e]⟩
    · cases h; exact ⟨s.pipe, _, rfl⟩
    · cases h; exact ⟨s.pipe, _, rfl⟩
    · split at h
      · cases h
      · cases h; exact ⟨_, s.rd_script, rfl⟩

theorem wait_loop_keeps_known (rx : Nat → State → State)
    (hrx : ∀ k t, t.fujinet_known ≠ 0 → (rx k t).fujinet_known ≠ 0) :
    ∀ (fuel : Nat) (ticker : Int) (s s1 : State), s.fujinet_known ≠ 0 →
      wait_loop rx fuel ticker s = some s1 → s1.fujinet_known ≠ 0 := by
  intro fuel
  induction fuel with
  | zero => intro ticker s s1 _ h; simp [wait_loop] at h
  | succ fuel ih =>
    intro ticker s s1 hk h
    unfold wait_loop at h
    have hk2 : (rx ticker.toNat (millisleep 5 s)).fujinet_known ≠ 0 := hrx _ _ hk
    split_ifs at h
    · cases h; exact hk2
    · exact ih _ _ _ hk2 h
    · cases h; exact hk

/-- C18: in one pass of the receiver loop, a recvfrom result n >= 1 sets
fujinet_known to 1 before the switch runs, whatever the command byte and the
length are, and the flag is 1 when the pass returns (which it does when the
FIFO works); a result n <= 0 skips the switch and changes nothing but the
stored source address.  No operation clears the flag: a receiver pass leaves a
nonzero flag nonzero, every outbound function (netsio_test_cmd included) and
netsio_recv_byte leave it as it is, and so does netsio_wait_for_sync when the receiver passes that run during
its sleeps do. -/
theorem C18_peer_known_set_by_receive_never_cleared (K : Consts) (fuel : Nat) (n : Int)
    (buf : List Nat) (inet : Bool) (s : State) (b : Nat) (block : List Nat) (len v : Int)
    (rfuel wfuel : Nat) (rx : Nat → State → State) :
    (1 ≤ n → fujinet_rx_iteration K fuel n buf inet s =
        dispatch K fuel n buf { s with addr_inet := inet, fujinet_known := 1 }) ∧
      (1 ≤ n → ∀ s1, fujinet_rx_iteration K fuel n buf inet s = .done s1 →
        s1.fujinet_known = 1) ∧
      (1 ≤ buf.length → PipeWorks s → s.wr_script.length + 2 ≤ fuel →
        ∃ s1, receive K fuel buf inet s = .done s1 ∧ s1.fujinet_known = 1) ∧
      (n ≤ 0 → fujinet_rx_iteration K fuel n buf inet s = .done { s with addr_inet := inet }) ∧
      (∀ s1, fujinet_rx_iteration K fuel n buf inet s = .done s1 →
        s.fujinet_known ≠ 0 → s1.fujinet_known ≠ 0) ∧
      (∀ t ∈ [(netsio_send_byte K b s).2, (netsio_send_byte_sync K b s).2,
          (netsio_send_block K block len s).2, (netsio_cmd_on K s).2, (netsio_cmd_off K s).2,
          (netsio_cmd_off_sync K s).2, netsio_toggle_cmd K v s, (netsio_cold_reset s).2,
          (netsio_warm_reset s).2, netsio_test_cmd K s], t.fujinet_known = s.fujinet_known) ∧
      (∀ r b1 s1, netsio_recv_byte rfuel b s = .done (r, b1, s1) →
        s1.fujinet_known = s.fujinet_known) ∧
      ((∀ k t, t.fujinet_known ≠ 0 → (rx k t).fujinet_known ≠ 0) →
        ∀ s1, netsio_wait_for_sync rx wfuel s = some s1 →
          s.fujinet_known ≠ 0 → s1.fujinet_known ≠ 0) := by
  have p1 : 1 ≤ n → fujinet_rx_iteration K fuel n buf inet s =
      dispatch K fuel n buf { s with addr_inet := inet, fujinet_known := 1 } := by
    intro hn
    have h1 : ¬ (n ≤ 0) := by omega
    have h2 : ¬ (n < 1) := by omega
    simp only [fujinet_rx_iteration, h1, h2, if_false]
  have p2 : 1 ≤ n → ∀ s1, fujinet_rx_iteration K fuel n buf inet s = .done s1 →
      s1.fujinet_known = 1 := by
    intro hn s1 h
    exact ((rx_iteration_frame K fuel n buf inet s s1 h).2 hn).2.1
  have p4 : n ≤ 0 → fujinet_rx_iteration K fuel n buf inet s = .done { s with addr_inet := inet } := by
    intro hn
    simp only [fujinet_rx_iteration, hn, if_true]
  refine ⟨p1, p2, ?_, p4, ?_, ?_, ?_, ?_⟩
  · intro hb hw hf
    obtain ⟨s1, e1, -, -⟩ := receive_total K fuel buf inet s hw hf
    refine ⟨s1, e1, ?_⟩
    have hb1 := stored_length_ge buf 1 (by decide) hb
    exact ((rx_iteration_frame K fuel ((buf.take 4096).length : Int) (buf.take 4096) inet s s1
      e1).2 (by omega)).2.1
  · intro s1 h hk
    by_cases hn : 1 ≤ n
    · rw [p2 hn s1 h]; decide
    · rw [p4 (by omega)] at h
      cases h
      exact hk
  · intro t ht
    simp only [List.mem_cons, List.mem_singleton, List.not_mem_nil, or_false] at ht
    rcases ht with rfl | rfl | rfl | rfl | rfl | rfl | rfl | rfl | rfl | rfl
    · simp [netsio_send_byte]
    · simp [netsio_send_byte_sync]
    · simp only [netsio_send_block, send_block_to_fujinet]
      split_ifs <;> simp
    · simp [netsio_cmd_on]
    · simp [netsio_cmd_off]
    · simp [netsio_cmd_off_sync]
    · simp only [netsio_toggle_cmd]
      split_ifs <;> simp [netsio_cmd_on, netsio_cmd_off_sync]
    · simp [netsio_cold_reset]
    · simp [netsio_warm_reset]
    · simp only [netsio_test_cmd, netsio_cmd_off_sync, send_block_to_fujinet, netsio_cmd_on]
      split_ifs <;> simp
  · intro r b1 s1 h
    obtain ⟨p, rs, e⟩ := recv_byte_shape rfuel b s r b1 s1 h
    rw [e]
  · intro hrx s1 h hk
    exact wait_loop_keeps_known rx hrx wfuel 0 s s1 hk h

/-- Sample of C18: at program start a receive of length 0 leaves the peer
unknown, and a receive of one unrecognized byte makes it known. -/
theorem C18_peer_known_sample :
    fujinet_rx_iteration netsio_h 0 0 [] false State.init = .done State.init ∧
      fujinet_rx_iteration netsio_h 0 1 [0x11] true State.init
        = .done { State.init with addr_inet := true, fujinet_known := 1 } := by
  have h := C18_peer_known_set_by_receive_never_cleared netsio_h 0 0 [] false State.init 0 [] 0 0
    0 0 (fun _ t => t)
  exact ⟨h.2.2.2.1 (by decide), by decide⟩

/-! ### The race between the reply and the store that arms the wait -/

theorem send_byte_sync_split (K : Consts) (b : Nat) (s : State) :
    netsio_send_byte_sync K b s = (0, arm_sync_wait (send_byte_sync_sent K b s)) := rfl

/-- C19 (the code at the failing schedule): netsio_send_byte_sync sets
netsio_sync_wait only after send_to_fujinet has returned.  When the receiver
dispatches the matching SYNC_RESPONSE between these two steps, the reply is
taken (its ack byte 0x99 is in the FIFO) but the store that follows sets
netsio_sync_wait again, and netsio_wait_for_sync sleeps 9 times and leaves by
its timeout.  When the same reply is dispatched after the store, the wait
returns without sleeping. -/
theorem C19_reply_before_arming_store_is_lost :
    (sync_schedule netsio_h true 0x42 [0x81, 1, 1, 0x99, 0x10, 0x00] (known_peer 0)).map
        (fun t => (t.sendto_log, t.pipe, t.slept, t.netsio_sync_wait))
      = some ([([0x09, 0x42, 1], .ok 3)], [0x99], [5, 5, 5, 5, 5, 5, 5, 5, 5], 0) ∧
    (sync_schedule netsio_h false 0x42 [0x81, 1, 1, 0x99, 0x10, 0x00] (known_peer 0)).map
        (fun t => (t.sendto_log, t.pipe, t.slept, t.netsio_sync_wait))
      = some ([([0x09, 0x42, 1], .ok 3)], [0x99], [], 0) ∧
    netsio_send_byte_sync netsio_h 0x42 (known_peer 0)
      = (0, arm_sync_wait (send_byte_sync_sent netsio_h 0x42 (known_peer 0))) :=
  ⟨by decide, by decide, rfl⟩


/-! ### The write loop of the FIFO -/

/-- C21: when every write on the FIFO takes at least one byte or is
interrupted (EINTR), enqueue_to_emulator(pkt, len) returns, for every fuel
above the number of scripted write results plus one, and the FIFO then holds
its former bytes followed by pkt[0..len) in order, each byte once, however the
scripted writes split the packet; nothing else changes but the consumed part of
the script. -/
theorem C21_enqueue_delivers_packet_once_in_order (pkt : List Nat) (len : Nat) (s : State)
    (hlen : len ≤ pkt.length) (hw : PipeWorks s)
    (fuel : Nat) (hfuel : s.wr_script.length + 2 ≤ fuel) :
    ∃ s1, enqueue_to_emulator pkt fuel 0 len s = .done s1 ∧
      s1.pipe = s.pipe ++ pkt.take len ∧
      s1 = { s with pipe := s1.pipe, wr_script := s1.wr_script } ∧
      s1.wr_script.length ≤ s.wr_script.length := by
  obtain ⟨s1, h1, h2, -, h4⟩ := enqueue_works pkt fuel 0 len s (by omega) hw
    (by have : min len 1 ≤ 1 := Nat.min_le_right _ _
        omega)
  have hp : s1.pipe = s.pipe ++ pkt.take len := by
    rw [h2]; simp
  refine ⟨s1, by simpa using h1, hp, ?_, h4⟩
  conv_lhs => rw [h2]
  rw [hp]
  simp

/-- Witness of C21: five bytes written as 2 + 1 + 2 with three interrupted
calls in between, behind a byte already queued. -/
theorem C21_enqueue_witness :
    ∃ s1, enqueue_to_emulator [1, 2, 3, 4, 5] 8 0 5 split_writes = .done s1 ∧
      s1.pipe = split_writes.pipe ++ ([1, 2, 3, 4, 5] : List Nat).take 5 ∧
      s1 = { split_writes with pipe := s1.pipe, wr_script := s1.wr_script } ∧
      s1.wr_script.length ≤ split_writes.wr_script.length :=
  C21_enqueue_delivers_packet_once_in_order [1, 2, 3, 4, 5] 5 split_writes
    (by decide) (by decide) 8 (by decide)

/-- C22 (the code at the failing input): after a write that fails with an
errno other than EINTR the code does not leave the loop; with n = -1 it steps
the pointer back by one and raises len by one, so the next call asks write for
2 bytes starting one byte before the 1-byte packet.  When an earlier partial
write has moved the pointer, the request stays inside the datagram and a byte
that was already delivered is written again: the block 1, 2, 3 reaches the
FIFO as 1, 2, 2, 3. -/
theorem C22_write_failure_steps_back_and_retries :
    enqueue_to_emulator [0x99] 5 0 1 { State.init with wr_script := [.fail] }
        = .outside (-1) 2 ∧
      enqueue_to_emulator [0x99] 5 0 1 { State.init with wr_script := [.fail, .fail, .fail] }
        = .outside (-1) 2 ∧
      receive netsio_h 5 [0x02, 1, 2, 3] true { State.init with wr_script := [.wrote 2, .fail] }
        = .done { State.init with fujinet_known := 1, addr_inet := true, pipe := [1, 2, 2, 3] } :=
  ⟨by decide, by decide, by decide⟩

/-! ### Replies and sends outside a pending exchange -/

theorem write_size_low_byte (lo hi : Nat) :
    u8 (lo ||| ((hi % 65536) <<< 8)) = lo % 256 := by
  unfold u8
  apply Nat.eq_of_testBit_eq
  intro i
  have h256 : (256 : Nat) = 2 ^ 8 := by norm_num
  rw [h256, Nat.testBit_mod_two_pow, Nat.testBit_mod_two_pow, Nat.testBit_or,
    Nat.testBit_shiftLeft]
  by_cases hi8 : i < 8
  · have : ¬ (i ≥ 8) := by omega
    simp [hi8, this]
  · simp [hi8]

/-- C23: one receiver pass on a SYNC_RESPONSE of at least 6 bytes with
ack_type 1 whose sequence byte equals netsio_sync_num, taken while
netsio_sync_wait is 0 (no exchange pending), still returns with the ack byte
appended to the FIFO and netsio_next_write_size overwritten (with the low byte
buf[4] of the advertised size); netsio_sync_wait stays as it was, 0. -/
theorem C23_unsolicited_ack_is_still_taken (K : Consts) (hK : K.WF) (fuel : Nat)
    (buf : List Nat) (inet : Bool) (s : State) (hidle : s.netsio_sync_wait = 0)
    (hlen : 6 ≤ buf.length) (hcmd : buf.getD 0 0 = K.SYNC_RESPONSE)
    (hseq : buf.getD 1 0 = s.netsio_sync_num) (hack : buf.getD 2 0 = 1)
    (hw : PipeWorks s) (hfuel : s.wr_script.length + 2 ≤ fuel) :
    ∃ s1, receive K fuel buf inet s = .done s1 ∧
      s1.pipe = s.pipe ++ [buf.getD 3 0] ∧
      s1.netsio_next_write_size = ((buf.getD 4 0 % 256 : Nat) : Int) ∧
      s1.netsio_sync_wait = s.netsio_sync_wait := by
  rw [← stored_getD buf 0 (by decide)] at hcmd
  rw [← stored_getD buf 1 (by decide)] at hseq
  rw [← stored_getD buf 2 (by decide)] at hack
  replace hlen := stored_length_ge buf 6 (by decide) hlen
  rw [← stored_getD buf 3 (by decide), ← stored_getD buf 4 (by decide)]
  unfold receive
  generalize List.take 4096 buf = buf at *
  rw [stored_eq_dispatch K fuel buf inet _ (by omega), dispatch_SYNC_RESPONSE K hK _ _ _ _ hcmd]
  have h6 : ¬ ((buf.length : Int) < 6) := by omega
  simp only [case_SYNC_RESPONSE, h6, if_false, hseq, ne_eq, not_true_eq_false, hack,
    one_ne_zero, if_true, write_size_low_byte]
  obtain ⟨s1, h1, h2, -, -⟩ := enqueue_one (buf.getD 3 0) fuel
    { s with addr_inet := inet, fujinet_known := 1,
             netsio_next_write_size := ((buf.getD 4 0 % 256 : Nat) : Int) }
    hw hfuel
  rw [h1]
  exact ⟨_, rfl, by rw [h2], by rw [h2], hidle.symm⟩

/-- Witness of C23: a reply with sequence 0 at program start, before any
synchronous send, and a late reply for sequence 1 after the wait has timed
out. -/
theorem C23_unsolicited_ack_witness :
    (∃ s1, receive netsio_h 2 [0x81, 0, 1, 0x99, 0x10, 0x00] true State.init = .done s1 ∧
      s1.pipe = State.init.pipe ++ [([0x81, 0, 1, 0x99, 0x10, 0x00] : List Nat).getD 3 0] ∧
      s1.netsio_next_write_size
        = ((([0x81, 0, 1, 0x99, 0x10, 0x00] : List Nat).getD 4 0 % 256 : Nat) : Int) ∧
      s1.netsio_sync_wait = State.init.netsio_sync_wait) ∧
    (∃ s1, receive netsio_h 2 [0x81, 1, 1, 0x99, 0x10, 0x00] true after_timeout = .done s1 ∧
      s1.pipe = after_timeout.pipe ++ [([0x81, 1, 1, 0x99, 0x10, 0x00] : List Nat).getD 3 0] ∧
      s1.netsio_next_write_size
        = ((([0x81, 1, 1, 0x99, 0x10, 0x00] : List Nat).getD 4 0 % 256 : Nat) : Int) ∧
      s1.netsio_sync_wait = after_timeout.netsio_sync_wait) :=
  ⟨C23_unsolicited_ack_is_still_taken netsio_h (by decide) 2 [0x81, 0, 1, 0x99, 0x10, 0x00] true
      State.init (by decide) (by decide) (by decide) (by decide) (by decide) (by decide)
      (by decide),
    C23_unsolicited_ack_is_still_taken netsio_h (by decide) 2 [0x81, 1, 1, 0x99, 0x10, 0x00] true
      after_timeout (by decide) (by decide) (by decide) (by decide) (by decide) (by decide)
      (by decide)⟩

/-- C24: while fujinet_known is 0, netsio_send_byte_sync and
netsio_cmd_off_sync return 0 without calling sendto, and the state after the
call is the state before it with netsio_sync_num advanced by 1 modulo 256 and
netsio_sync_wait set to 1; no other field differs. -/
theorem C24_sync_sends_arm_the_gate_without_a_peer (K : Consts) (b : Nat) (s : State)
    (h : s.fujinet_known = 0) :
    netsio_send_byte_sync K b s =
        (0, { s with netsio_sync_num := (s.netsio_sync_num + 1) % 256, netsio_sync_wait := 1 }) ∧
      netsio_cmd_off_sync K s =
        (0, { s with netsio_sync_num := (s.netsio_sync_num + 1) % 256, netsio_sync_wait := 1 }) ∧
      (netsio_send_byte_sync K b s).2.sendto_log = s.sendto_log ∧
      (netsio_cmd_off_sync K s).2.sendto_log = s.sendto_log := by
  have h1 : netsio_send_byte_sync K b s =
      (0, { s with netsio_sync_num := (s.netsio_sync_num + 1) % 256, netsio_sync_wait := 1 }) := by
    simp only [netsio_send_byte_sync]
    rw [send_to_fujinet_unknown _ _ _ (by exact h)]
    rfl
  have h2 : netsio_cmd_off_sync K s =
      (0, { s with netsio_sync_num := (s.netsio_sync_num + 1) % 256, netsio_sync_wait := 1 }) := by
    simp only [netsio_cmd_off_sync]
    rw [send_to_fujinet_unknown _ _ _ (by exact h)]
    rfl
  refine ⟨h1, h2, ?_, ?_⟩
  · rw [h1]
  · rw [h2]

/-- Witness of C24: at program start with the counter at 255, which wraps to 0. -/
theorem C24_sync_sends_without_a_peer_witness :
    netsio_send_byte_sync netsio_h 0x42 { State.init with netsio_sync_num := 255 } =
        (0, { State.init with netsio_sync_num := 0, netsio_sync_wait := 1 }) ∧
      netsio_cmd_off_sync netsio_h { State.init with netsio_sync_num := 255 } =
        (0, { State.init with netsio_sync_num := 0, netsio_sync_wait := 1 }) := by
  have h := C24_sync_sends_arm_the_gate_without_a_peer netsio_h 0x42
    { State.init with netsio_sync_num := 255 } (by decide)
  exact ⟨h.1, h.2.1⟩


/-! ### The cartridge checksum -/

theorem wrap_int32_of_fits (x : Int) (h0 : -(2 ^ 31) ≤ x) (h1 : x < 2 ^ 31) : wrap_int32 x = x := by
  unfold wrap_int32
  omega

theorem wrap_int32_range (x : Int) : -(2 ^ 31) ≤ wrap_int32 x ∧ wrap_int32 x < 2 ^ 31 := by
  unfold wrap_int32
  omega

theorem wrap_int32_add (a b : Int) : wrap_int32 (wrap_int32 a + b) = wrap_int32 (a + b) := by
  unfold wrap_int32
  omega

theorem checksum_loop_wraps (image : List Nat) :
    ∀ (fuel i n : Nat) (c : Int), i + n ≤ image.length → n + 1 ≤ fuel →
      -(2 ^ 31) ≤ c → c < 2 ^ 31 →
      checksum_loop image fuel i (n : Int) c =
        .done (wrap_int32 (c + (((image.drop i).take n).sum : Nat))) := by
  intro fuel
  induction fuel with
  | zero => intro i n c _ hf; omega
  | succ fuel ih =>
    intro i n c hb hf h0 h1
    cases n with
    | zero =>
      simp [checksum_loop, wrap_int32_of_fits c h0 h1]
    | succ n =>
      have hn : (((n + 1 : Nat) : Int) > 0) := by omega
      have hi : i < image.length := by omega
      have hget : image[i]? = some image[i] := List.getElem?_eq_getElem hi
      have hstep : ((n + 1 : Nat) : Int) - 1 = (n : Int) := by omega
      have hr := wrap_int32_range (c + (image[i] : Int))
      have hdrop : image.drop i = image[i] :: image.drop (i + 1) := List.drop_eq_getElem_cons hi
      simp only [checksum_loop, hn, if_true, hget, hstep]
      rw [ih (i + 1) n _ (by omega) (by omega) hr.1 hr.2, wrap_int32_add, hdrop]
      simp only [List.take_succ_cons, List.sum_cons, Nat.cast_add]
      rw [Int.add_assoc]

theorem largest_kb_eq : largest_kb = 128 * 1024 := by
  simp [largest_kb, CARTRIDGES]

/-- C25: for every image and every nbytes that does not exceed its length,
when the sum of the first nbytes bytes (each an unsigned value) fits a 32-bit
int, CARTRIDGE_Checksum returns, for every fuel above nbytes, exactly that sum;
for nbytes <= 0 it returns 0.  The largest size in CARTRIDGES is 128 * 1024 KB,
and for an image of that many bytes 0xFF the sum 255 * 134217728 does not fit:
the wrapping loop returns -134217728. -/
theorem C25_checksum_is_byte_sum_when_it_fits (image : List Nat) (nbytes : Int)
    (hn : nbytes ≤ image.length) (hfit : ((image.take nbytes.toNat).sum : Int) < 2 ^ 31)
    (fuel : Nat) (hfuel : nbytes.toNat + 1 ≤ fuel) :
    CARTRIDGE_Checksum fuel image nbytes = .done ((image.take nbytes.toNat).sum : Int) ∧
      (nbytes ≤ 0 → CARTRIDGE_Checksum fuel image nbytes = .done 0) ∧
      largest_kb = 128 * 1024 ∧
      ¬ ((255 : Int) * (largest_kb * 1024) < 2 ^ 31) ∧
      (∀ f, 134217728 + 1 ≤ f →
        CARTRIDGE_Checksum f (List.replicate 134217728 0xFF) 134217728
          = .done (-134217728)) := by
  have hmax : largest_kb = 128 * 1024 := largest_kb_eq
  have main : CARTRIDGE_Checksum fuel image nbytes
      = .done ((image.take nbytes.toNat).sum : Int) := by
    by_cases hpos : 0 < nbytes
    · have hcast : ((nbytes.toNat : Nat) : Int) = nbytes := Int.toNat_of_nonneg (by omega)
      have h := checksum_loop_wraps image fuel 0 nbytes.toNat 0 (by omega) hfuel
        (by norm_num) (by norm_num)
      rw [hcast] at h
      unfold CARTRIDGE_Checksum
      rw [h, List.drop_zero, Int.zero_add, wrap_int32_of_fits _ (by omega) hfit]
    · obtain ⟨f, rfl⟩ : ∃ f, fuel = f + 1 := ⟨fuel - 1, by omega⟩
      have h0 : nbytes.toNat = 0 := by omega
      have hng : ¬ (nbytes > 0) := by omega
      simp only [CARTRIDGE_Checksum, checksum_loop, hng, if_false, h0, List.take_zero,
        List.sum_nil, Nat.cast_zero]
  refine ⟨main, ?_, hmax, ?_, ?_⟩
  · intro hle
    have h0 : nbytes.toNat = 0 := by omega
    rw [main, h0]
    rfl
  · rw [hmax]; norm_num
  · intro f hf
    have h := checksum_loop_wraps (List.replicate 134217728 0xFF) f 0 134217728 0
      (by rw [List.length_replicate]) hf (by norm_num) (by norm_num)
    have hsum : (((List.replicate 134217728 0xFF).drop 0).take 134217728).sum
        = 134217728 * 0xFF := by
      rw [List.drop_zero, List.take_replicate, Nat.min_self, List.sum_replicate, smul_eq_mul]
    unfold CARTRIDGE_Checksum
    have hc : ((134217728 : Nat) : Int) = 134217728 := by norm_num
    rw [hc] at h
    rw [h, hsum]
    unfold wrap_int32
    norm_num

/-- Witness of C25: the four bytes 1, 2, 3, 0xFF sum to 261. -/
theorem C25_checksum_witness :
    CARTRIDGE_Checksum 5 [1, 2, 3, 0xFF] 4
        = .done ((([1, 2, 3, 0xFF] : List Nat).take (4 : Int).toNat).sum : Int) ∧
      ((4 : Int) ≤ 0 → CARTRIDGE_Checksum 5 [1, 2, 3, 0xFF] 4 = .done 0) ∧
      largest_kb = 128 * 1024 ∧
      ¬ ((255 : Int) * (largest_kb * 1024) < 2 ^ 31) ∧
      (∀ f, 134217728 + 1 ≤ f →
        CARTRIDGE_Checksum f (List.replicate 134217728 0xFF) 134217728
          = .done (-134217728)) :=
  C25_checksum_is_byte_sum_when_it_fits [1, 2, 3, 0xFF] 4 (by decide) (by decide) 5 (by decide)


end Bridge
